import Mathlib

/-!
Verification of the HTTP callback subscription transport
(`packages/transports/http-callback/src/index.ts`).

The transport is embedded as an explicit state machine. The mutable
environment of `getSubgraphExecutor` (the instance `verifier`, the
`heartbeats` map, the `stopFnSet`) together with the per-subscription
state created by `httpCallbackExecutor` (the Repeater's push/stop
wiring and the pub/sub registration) is collected in `TransportState`.
JavaScript timers are modelled by allocating fresh numeric handles:
`setTimeout` adds a live timer with an absolute deadline, `clearTimeout`
removes the handle, and a timer may only fire while its handle is still
live (a cleared timer never fires).

Library semantics relied upon by the source and reflected in the model:
a Repeater's `stop(err?)` settles at most once (subsequent calls are
no-ops), `stop.finally(f)` runs `f` exactly once upon settling, and
`push` after `stop` is dropped. JavaScript truthiness is modelled
explicitly where the source branches on it: `x || d` treats `0` and the
empty string as falsy, and `if (message.errors)` is true for any present
array, including the empty one.
-/

namespace HttpCallback

/-- Association-list lookup, first binding wins (JS `Map.get`). -/
def alLookup {α : Type} : List (String × α) → String → Option α
  | [], _ => none
  | (k, v) :: rest, key => if k = key then some v else alLookup rest key

/-- Association-list insert/replace in place (JS `Map.set`). -/
def alInsert {α : Type} : List (String × α) → String → α → List (String × α)
  | [], key, v => [(key, v)]
  | (k, w) :: rest, key, v =>
    if k = key then (key, v) :: rest else (k, w) :: alInsert rest key v

/-- Association-list removal (JS `Map.delete`). -/
def alErase {α : Type} (l : List (String × α)) (key : String) : List (String × α) :=
  l.filter (fun p => p.1 ≠ key)

/-- JS `x || d` for an optional string option (`undefined` and `""` are falsy). -/
def orElseStr (o : Option String) (d : String) : String :=
  match o with
  | some s => if s = "" then d else s
  | none => d

/-- JS `x || d` for an optional numeric option (`undefined` and `0` are falsy). -/
def orElseNat (o : Option Nat) (d : Nat) : Nat :=
  match o with
  | some n => if n = 0 then d else n
  | none => d

/-- A GraphQL error value: the message plus the `extensions` fields the
transport actually sets (`code`, and `http.status` for the HTTP failure). -/
structure GraphQLErrorVal where
  message : String
  code : Option String := none
  httpStatus : Option Nat := none
deriving DecidableEq, Repr

/-- `createTimeoutError()` (source lines 54-60). -/
def createTimeoutError : GraphQLErrorVal :=
  { message := "Subscription timed out", code := some "TIMEOUT_ERROR" }

/-- The `HTTP Error` GraphQL error built for a non-ok initiating response
(source lines 145-153). -/
def createHTTPError (status : Nat) : GraphQLErrorVal :=
  { message := "HTTP Error", httpStatus := some status }

/-- The value passed to the Repeater's `stop`: a single GraphQL error, an
`AggregateError` over a list of errors with its own message (the complete
path builds it without a message, modelled as `""`), or a rejected fetch. -/
inductive StopErr where
  | gqlError (e : GraphQLErrorVal)
  | aggregateError (errors : List GraphQLErrorVal) (message : String)
  | fetchError (msg : String)
deriving DecidableEq, Repr

/-- Opaque stand-in for a JSON data value. -/
abbrev JSONData := String

/-- The shape of `ExecutionResult` as read by the transport: optional
`data` and optional `errors`. -/
structure ExecutionResult where
  data : Option JSONData := none
  errors : Option (List GraphQLErrorVal) := none
deriving DecidableEq, Repr

/-- The `action` discriminant of `HTTPCallbackMessage` with its payload. -/
inductive CallbackAction where
  | check
  | next (payload : ExecutionResult)
  | complete (errors : Option (List GraphQLErrorVal))
deriving DecidableEq, Repr

/-- An inbound callback message (source lines 32-52; the constant
`kind: 'subscription'` tag is omitted). -/
structure HTTPCallbackMessage where
  id : String
  verifier : String
  action : CallbackAction
deriving DecidableEq, Repr

/-- A value delivered into the result sequence: the whole payload for a
`next` message (`push(message.payload)`, line 206), or the raw `data`
field for an inline initiating-response result (`pushFn(resJson.data)`,
line 171). -/
inductive PushedValue where
  | result (r : ExecutionResult)
  | rawData (d : JSONData)
deriving DecidableEq, Repr

/-- Lifecycle phase of one subscription's Repeater: running, or settled
with an optional terminal error. -/
inductive SubPhase where
  | active
  | stopped (err : Option StopErr)
deriving DecidableEq, Repr

/-- Per-subscription record: phase, the values pushed so far, how many
times the `stop.finally` cleanup body ran, how many times
`pubsub.unsubscribe` was called for it, and whether the pub/sub handler
is still registered. -/
structure SubRec where
  phase : SubPhase
  pushed : List PushedValue
  cleanupCount : Nat
  unsubCount : Nat
  pubsubRegistered : Bool
deriving DecidableEq, Repr

/-- A live `setTimeout` timer: its handle, the subscription id its
callback closes over, and its absolute deadline. -/
structure Timer where
  handle : Nat
  subId : String
  deadline : Nat
deriving DecidableEq, Repr

/-- `HTTPCallbackTransportOptions` (source lines 13-30). -/
structure TransportOptions where
  public_url : Option String := none
  path : Option String := none
  heartbeat_interval : Option Nat := none
deriving DecidableEq, Repr

/-- The documented default of `heartbeat_interval` as stated in the
option's doc comment (source lines 26-29). -/
def documentedHeartbeatIntervalDefault : Nat := 5000

/-- The whole transport instance state. -/
structure TransportState where
  verifier : String
  options : TransportOptions
  now : Nat
  nextHandle : Nat
  liveTimers : List Timer
  heartbeats : List (String × Nat)
  subs : List (String × SubRec)
  stopFnSet : List String
deriving DecidableEq, Repr

/-- `setTimeout(cb, delayMs)`: allocate a fresh handle and register a
live timer with deadline `now + delayMs`; returns the handle. -/
def setTimeoutArm (st : TransportState) (subId : String) (delayMs : Nat) :
    TransportState × Nat :=
  let h := st.nextHandle
  ({ st with
      nextHandle := h + 1,
      liveTimers := ⟨h, subId, st.now + delayMs⟩ :: st.liveTimers }, h)

/-- `clearTimeout(h)`, where `h` may be `undefined` (clearing nothing, as
in `clearTimeout(heartbeats.get(subscriptionId))` on line 230). -/
def clearTimeoutOpt (st : TransportState) (h : Option Nat) : TransportState :=
  match h with
  | none => st
  | some h => { st with liveTimers := st.liveTimers.filter (fun t => t.handle ≠ h) }

/-- The Repeater `stop(err?)` as wired on line 182, together with the
`stop.finally` cleanup (lines 228-233): if the subscription is still
active, settle it (later calls are no-ops) and run cleanup exactly once —
`pubsub.unsubscribe(subId)`, `clearTimeout(heartbeats.get(subscriptionId))`,
`heartbeats.delete(subscriptionId)`, `stopFnSet.delete(stop)`. -/
def stopSub (st : TransportState) (tid : String) (err : Option StopErr) :
    TransportState :=
  match alLookup st.subs tid with
  | none => st
  | some sub =>
    match sub.phase with
    | .stopped _ => st
    | .active =>
      let sub' : SubRec :=
        { sub with
            phase := .stopped err,
            cleanupCount := sub.cleanupCount + 1,
            unsubCount := sub.unsubCount + 1,
            pubsubRegistered := false }
      let st₁ := { st with subs := alInsert st.subs tid sub' }
      let st₂ := clearTimeoutOpt st₁ (alLookup st₁.heartbeats tid)
      { st₂ with
          heartbeats := alErase st₂.heartbeats tid,
          stopFnSet := st₂.stopFnSet.filter (fun x => x ≠ tid) }

/-- The Repeater `push` as wired on line 181: append the value while the
sequence is open; a push after `stop` is dropped. -/
def pushVal (st : TransportState) (tid : String) (v : PushedValue) :
    TransportState :=
  match alLookup st.subs tid with
  | none => st
  | some sub =>
    match sub.phase with
    | .active => { st with subs := alInsert st.subs tid { sub with pushed := sub.pushed ++ [v] } }
    | .stopped _ => st

/-- Heartbeat re-arm on message acceptance (source lines 192-201): clear
the existing timer for `subscriptionId` if present, then start a new one
for the configured interval and record it in `heartbeats`. -/
def rearmHeartbeat (st : TransportState) (tid : String) : TransportState :=
  let st₁ := clearTimeoutOpt st (alLookup st.heartbeats tid)
  let iv := orElseNat st.options.heartbeat_interval 50000
  let p := setTimeoutArm st₁ tid iv
  { p.1 with heartbeats := alInsert p.1.heartbeats tid p.2 }

/-- The terminal value a `complete` message produces (source lines
208-223). JS truthiness: `if (message.errors)` is taken for any present
array, even an empty one, so `errors: []` lands in the
`AggregateError` branch, not the clean-completion branch. -/
def completeStopErr (errors : Option (List GraphQLErrorVal)) : Option StopErr :=
  match errors with
  | none => none
  | some [e] => some (.gqlError e)
  | some errs => some (.aggregateError errs "")

/-- Dispatch on `message.action` (source lines 202-225). -/
def dispatchAction (st : TransportState) (tid : String) (a : CallbackAction) :
    TransportState :=
  match a with
  | .check => st
  | .next p => pushVal st tid (.result p)
  | .complete errs => stopSub st tid (completeStopErr errs)

/-- The pub/sub handler for the topic of subscription `tid` (source lines
187-226). The message is delivered only while the handler is registered.
A mismatched verifier returns immediately (line 189-191). On acceptance
the heartbeat is re-armed first, then the action is dispatched. The
handler closes over `subscriptionId` (= `tid`); it never reads
`message.id`. -/
def handleMessage (st : TransportState) (tid : String) (m : HTTPCallbackMessage) :
    TransportState :=
  match alLookup st.subs tid with
  | none => st
  | some sub =>
    if sub.pubsubRegistered then
      if m.verifier = st.verifier then
        dispatchAction (rearmHeartbeat st tid) tid m.action
      else st
    else st

/-- The initiating HTTP response as observed by the transport: `res.ok`,
`res.status`, and the parsed JSON body. -/
structure InitHttpResponse where
  ok : Bool
  status : Nat
  body : ExecutionResult
deriving DecidableEq, Repr

/-- The terminal error built from a GraphQL error payload of the
initiating response (source lines 159-169): a single error is re-raised
as-is, several are wrapped in an `AggregateError` whose message joins all
the individual messages. -/
def initErrorsStop (errs : List GraphQLErrorVal) : StopErr :=
  match errs with
  | [e] => .gqlError e
  | _ => .aggregateError errs (String.intercalate "\n" (errs.map (fun e => e.message)))

/-- Resolution of the initiating fetch (source lines 143-174): a non-ok
status stops the subscription with an `HTTP Error`, after which the body
is still parsed and processed; a GraphQL error payload stops it with the
single or aggregated error (`if (resJson.errors)` is also taken for an
empty array); otherwise non-null inline data is pushed and the sequence
stopped cleanly. -/
def handleInitResponse (st : TransportState) (tid : String) (r : InitHttpResponse) :
    TransportState :=
  let st₁ := if r.ok then st else stopSub st tid (some (.gqlError (createHTTPError r.status)))
  match r.body.errors with
  | some errs => stopSub st₁ tid (some (initErrorsStop errs))
  | none =>
    match r.body.data with
    | some d => stopSub (pushVal st₁ tid (.rawData d)) tid none
    | none => st₁

/-- Rejection of the initiating fetch (source lines 175-178). -/
def handleInitFailure (st : TransportState) (tid : String) (emsg : String) :
    TransportState :=
  stopSub st tid (some (.fetchError emsg))

/-- Expiry of timer `h`: only a still-live timer whose deadline has been
reached fires; firing consumes the timer and calls
`stopSubscription(createTimeoutError())` (source lines 117-119 and
198-200). -/
def fireTimer (st : TransportState) (h : Nat) : TransportState :=
  match st.liveTimers.find? (fun t => t.handle == h) with
  | none => st
  | some t =>
    if t.deadline ≤ st.now then
      let st₁ := { st with liveTimers := st.liveTimers.filter (fun u => u.handle ≠ h) }
      stopSub st₁ t.subId (some (.gqlError createTimeoutError))
    else st

/-- External cancellation: the caller abandons the Repeater, which
settles `stop` with no error and runs the same finalization. -/
def cancelSub (st : TransportState) (tid : String) : TransportState :=
  stopSub st tid none

/-- `httpCallbackExecutor[Symbol.asyncDispose]` (source lines 236-243):
call every registered `stop` with no argument, then `clearTimeout` every
handle remaining in `heartbeats` (the map entries themselves are not
deleted by this loop). Each `stop` only removes itself from `stopFnSet`,
so iterating the snapshot matches JS `Set` iteration under self-removal. -/
def dispose (st : TransportState) : TransportState :=
  let st₁ := st.stopFnSet.foldl (fun s tid => stopSub s tid none) st
  st₁.heartbeats.foldl (fun s p => clearTimeoutOpt s (some p.2)) st₁

/-- The subscription extension block sent in the initiating request body
(source lines 100-107). -/
structure SubscriptionExtension where
  callbackUrl : String
  subscriptionId : String
  verifier : String
  heartbeatIntervalMs : Nat
deriving DecidableEq, Repr

/-- One call of `httpCallbackExecutor` (source lines 85-234) for a fresh
`subscriptionId`, with the Repeater executor (lines 180-233) already
wired: compute the callback URL and interval, arm the initial heartbeat
(lines 115-120, no prior clear — the id is fresh), register the
subscription record, its pub/sub handler and its stop function. URL
normalization performed by the `URL` class is abstracted to appending
the id as a path segment. -/
def createSubscription (st₀ : TransportState) (subId : String) (time : Nat) :
    TransportState × SubscriptionExtension :=
  let st := { st₀ with now := time }
  let callbackPath := orElseStr st.options.path "/callback"
  let callbackUrl :=
    orElseStr st.options.public_url ("http://localhost:4000" ++ callbackPath) ++ "/" ++ subId
  let heartbeatIntervalMs := orElseNat st.options.heartbeat_interval 50000
  let ext : SubscriptionExtension := ⟨callbackUrl, subId, st.verifier, heartbeatIntervalMs⟩
  let p := setTimeoutArm st subId heartbeatIntervalMs
  let st₂ := { p.1 with heartbeats := alInsert p.1.heartbeats subId p.2 }
  let st₃ := { st₂ with
      subs := alInsert st₂.subs subId ⟨.active, [], 0, 0, true⟩,
      stopFnSet := if subId ∈ st₂.stopFnSet then st₂.stopFnSet else st₂.stopFnSet ++ [subId] }
  (st₃, ext)

/-- The fresh transport state produced by `getSubgraphExecutor`. -/
def initialState (verifier : String) (options : TransportOptions) : TransportState :=
  ⟨verifier, options, 0, 0, [], [], [], []⟩

/-- `getSubgraphExecutor` (source lines 63-245): throws at construction
time when no pubsub instance is provided (lines 75-82), otherwise returns
the executor over a fresh instance state. -/
def getSubgraphExecutor (verifier : String) (options : TransportOptions)
    (pubsub : Option Unit) : Except String TransportState :=
  match pubsub with
  | none => .error "You must provide a pubsub instance to http-callbacks transport!"
  | some _ => .ok (initialState verifier options)

/-- An asynchronous occurrence driving the machine. Each event carries
the event-loop time at which it runs. -/
inductive Event where
  | deliver (tid : String) (m : HTTPCallbackMessage) (time : Nat)
  | initResponse (tid : String) (r : InitHttpResponse) (time : Nat)
  | initFailure (tid : String) (emsg : String) (time : Nat)
  | cancel (tid : String) (time : Nat)
  | fire (h : Nat) (time : Nat)
  | disposeTransport (time : Nat)
deriving DecidableEq, Repr

/-- The time an event runs at. -/
def Event.time : Event → Nat
  | .deliver _ _ t => t
  | .initResponse _ _ t => t
  | .initFailure _ _ t => t
  | .cancel _ t => t
  | .fire _ t => t
  | .disposeTransport t => t

/-- One step of the machine. -/
def step (st : TransportState) (e : Event) : TransportState :=
  let st' := { st with now := e.time }
  match e with
  | .deliver tid m _ => handleMessage st' tid m
  | .initResponse tid r _ => handleInitResponse st' tid r
  | .initFailure tid emsg _ => handleInitFailure st' tid emsg
  | .cancel tid _ => cancelSub st' tid
  | .fire h _ => fireTimer st' h
  | .disposeTransport _ => dispose st'

/-- Run a trace of events. -/
def run (st : TransportState) (tr : List Event) : TransportState :=
  tr.foldl step st

/-! ### Association-list lemmas -/

theorem alLookup_alInsert_self {α : Type} (l : List (String × α)) (k : String) (v : α) :
    alLookup (alInsert l k v) k = some v := by
  induction l with
  | nil => simp [alInsert, alLookup]
  | cons p rest ih =>
    obtain ⟨a, b⟩ := p
    by_cases h : a = k
    · simp [alInsert, alLookup, h]
    · simp [alInsert, alLookup, h, ih]

theorem alLookup_alInsert_ne {α : Type} (l : List (String × α)) (k k' : String) (v : α)
    (hne : k' ≠ k) : alLookup (alInsert l k v) k' = alLookup l k' := by
  induction l with
  | nil => simp [alInsert, alLookup, Ne.symm hne]
  | cons p rest ih =>
    obtain ⟨a, b⟩ := p
    by_cases h : a = k
    · subst h
      simp [alInsert, alLookup, Ne.symm hne]
    · by_cases h' : a = k'
      · simp [alInsert, alLookup, h, h', hne]
      · simp [alInsert, alLookup, h, h', ih]

theorem alLookup_alErase_self {α : Type} (l : List (String × α)) (k : String) :
    alLookup (alErase l k) k = none := by
  induction l with
  | nil => simp [alErase, alLookup]
  | cons p rest ih =>
    obtain ⟨a, b⟩ := p
    by_cases h : a = k
    · simpa [alErase, List.filter_cons, h] using ih
    · simpa [alErase, List.filter_cons, h, alLookup] using ih

theorem alLookup_alErase_ne {α : Type} (l : List (String × α)) (k k' : String)
    (hne : k' ≠ k) : alLookup (alErase l k) k' = alLookup l k' := by
  induction l with
  | nil => simp [alErase, alLookup]
  | cons p rest ih =>
    obtain ⟨a, b⟩ := p
    by_cases h : a = k
    · simpa [alErase, List.filter_cons, h, alLookup, Ne.symm hne] using ih
    · by_cases h' : a = k'
      · simp [alErase, List.filter_cons, h, alLookup, h', hne]
      · simpa [alErase, List.filter_cons, h, alLookup, h'] using ih

theorem alLookup_mem {α : Type} {l : List (String × α)} {k : String} {v : α}
    (h : alLookup l k = some v) : (k, v) ∈ l := by
  induction l with
  | nil => simp [alLookup] at h
  | cons p rest ih =>
    obtain ⟨a, b⟩ := p
    by_cases hp : a = k
    · simp [alLookup, hp] at h
      subst hp
      subst h
      exact List.mem_cons_self _ _
    · simp [alLookup, hp] at h
      exact List.mem_cons_of_mem _ (ih h)

theorem mem_alInsert {α : Type} {l : List (String × α)} {k : String} {v : α} {p : String × α}
    (h : p ∈ alInsert l k v) : p = (k, v) ∨ p ∈ l := by
  induction l with
  | nil => simpa [alInsert] using h
  | cons q rest ih =>
    obtain ⟨a, b⟩ := q
    by_cases hq : a = k
    · simp [alInsert, hq] at h
      rcases h with h | h
      · exact Or.inl (by simp [h])
      · exact Or.inr (List.mem_cons_of_mem _ h)
    · simp [alInsert, hq] at h
      rcases h with h | h
      · exact Or.inr (by simp [h])
      · rcases ih h with h' | h'
        · exact Or.inl h'
        · exact Or.inr (List.mem_cons_of_mem _ h')

theorem mem_alErase {α : Type} {l : List (String × α)} {k : String} {p : String × α}
    (h : p ∈ alErase l k) : p ∈ l :=
  List.mem_of_mem_filter h

/-! ### Component-preservation lemmas -/

theorem clearTimeoutOpt_subs (st : TransportState) (h : Option Nat) :
    (clearTimeoutOpt st h).subs = st.subs := by
  cases h <;> rfl

theorem clearTimeoutOpt_heartbeats (st : TransportState) (h : Option Nat) :
    (clearTimeoutOpt st h).heartbeats = st.heartbeats := by
  cases h <;> rfl

theorem clearTimeoutOpt_stopFnSet (st : TransportState) (h : Option Nat) :
    (clearTimeoutOpt st h).stopFnSet = st.stopFnSet := by
  cases h <;> rfl

theorem clearTimeoutOpt_nextHandle (st : TransportState) (h : Option Nat) :
    (clearTimeoutOpt st h).nextHandle = st.nextHandle := by
  cases h <;> rfl

theorem clearTimeoutOpt_verifier (st : TransportState) (h : Option Nat) :
    (clearTimeoutOpt st h).verifier = st.verifier := by
  cases h <;> rfl

theorem mem_liveTimers_clearTimeoutOpt {st : TransportState} {h : Option Nat} {t : Timer}
    (ht : t ∈ (clearTimeoutOpt st h).liveTimers) : t ∈ st.liveTimers := by
  cases h with
  | none => exact ht
  | some h => exact List.mem_of_mem_filter ht

/-! ### Shape lemmas for the state transformers -/

theorem stopSub_of_none (st : TransportState) (tid : String) (err : Option StopErr)
    (h : alLookup st.subs tid = none) : stopSub st tid err = st := by
  simp [stopSub, h]

theorem stopSub_of_stopped (st : TransportState) (tid : String) (err e : Option StopErr)
    (sub : SubRec) (h : alLookup st.subs tid = some sub) (hp : sub.phase = .stopped e) :
    stopSub st tid err = st := by
  simp [stopSub, h, hp]

theorem stopSub_active_eq (st : TransportState) (tid : String) (err : Option StopErr)
    (sub : SubRec) (h : alLookup st.subs tid = some sub) (hp : sub.phase = .active) :
    stopSub st tid err =
      { st with
          subs := alInsert st.subs tid
            { sub with
                phase := .stopped err,
                cleanupCount := sub.cleanupCount + 1,
                unsubCount := sub.unsubCount + 1,
                pubsubRegistered := false },
          liveTimers :=
            match alLookup st.heartbeats tid with
            | none => st.liveTimers
            | some hh => st.liveTimers.filter (fun t => t.handle ≠ hh),
          heartbeats := alErase st.heartbeats tid,
          stopFnSet := st.stopFnSet.filter (fun x => x ≠ tid) } := by
  cases hhb : alLookup st.heartbeats tid <;>
    simp [stopSub, h, hp, clearTimeoutOpt, hhb]

theorem pushVal_of_none (st : TransportState) (tid : String) (v : PushedValue)
    (h : alLookup st.subs tid = none) : pushVal st tid v = st := by
  simp [pushVal, h]

theorem pushVal_of_stopped (st : TransportState) (tid : String) (v : PushedValue)
    (e : Option StopErr) (sub : SubRec) (h : alLookup st.subs tid = some sub)
    (hp : sub.phase = .stopped e) : pushVal st tid v = st := by
  simp [pushVal, h, hp]

theorem pushVal_active_eq (st : TransportState) (tid : String) (v : PushedValue)
    (sub : SubRec) (h : alLookup st.subs tid = some sub) (hp : sub.phase = .active) :
    pushVal st tid v = { st with subs := alInsert st.subs tid { sub with pushed := sub.pushed ++ [v] } } := by
  simp [pushVal, h, hp]

theorem rearmHeartbeat_eq (st : TransportState) (tid : String) :
    rearmHeartbeat st tid =
      { st with
          nextHandle := st.nextHandle + 1,
          liveTimers :=
            ⟨st.nextHandle, tid, st.now + orElseNat st.options.heartbeat_interval 50000⟩ ::
              (match alLookup st.heartbeats tid with
               | none => st.liveTimers
               | some hh => st.liveTimers.filter (fun t => t.handle ≠ hh)),
          heartbeats := alInsert st.heartbeats tid st.nextHandle } := by
  cases hhb : alLookup st.heartbeats tid <;>
    simp [rearmHeartbeat, clearTimeoutOpt, setTimeoutArm, hhb]

/-- Shared sample instance used by the concrete witnesses. -/
def sampleBase : TransportState := initialState "v-instance" {}

/-- Sample state with one freshly created subscription. -/
def sampleSub : TransportState := (createSubscription sampleBase "sub-1" 100).1

/-! ### C1 — mismatched verifier is silently discarded -/

/-- C1: an inbound callback message whose verifier differs from the
transport instance's verifier is discarded: the handler returns with the
whole transport state (subscription records, pushed values, heartbeat
timers) unchanged — no re-arm, no dispatch, no termination — and no
error is raised (the handler is total and just returns); at the event
level the only difference is the event-loop clock. -/
theorem verifier_mismatch_discard (st : TransportState) (tid : String)
    (m : HTTPCallbackMessage) (τ : Nat) (hv : m.verifier ≠ st.verifier) :
    handleMessage st tid m = st ∧
      step st (.deliver tid m τ) = { st with now := τ } := by
  constructor
  · unfold handleMessage
    cases h : alLookup st.subs tid with
    | none => rfl
    | some sub => by_cases hr : sub.pubsubRegistered <;> simp [hr, hv]
  · show handleMessage { st with now := τ } tid m = { st with now := τ }
    unfold handleMessage
    cases h : alLookup st.subs tid with
    | none => simp [h]
    | some sub => by_cases hr : sub.pubsubRegistered <;> simp [h, hr, hv]

/-- Witness for C1 at a concrete subscription and forged message. -/
theorem verifier_mismatch_discard_witness :
    (("forged" : String) ≠ sampleSub.verifier) ∧
      (handleMessage sampleSub "sub-1" ⟨"sub-1", "forged", .check⟩ = sampleSub ∧
        step sampleSub (.deliver "sub-1" ⟨"sub-1", "forged", .check⟩ 150) =
          { sampleSub with now := 150 }) :=
  ⟨by decide,
    verifier_mismatch_discard sampleSub "sub-1" ⟨"sub-1", "forged", .check⟩ 150 (by decide)⟩

/-! ### C9 — the enforced default heartbeat interval is 50000 ms -/

/-- C9: with no `heartbeat_interval` configured, the interval the
transport enforces is 50000 ms — it is communicated to the remote
subgraph in the subscription extension and used as the delay of the
armed heartbeat timer — which differs from the 5000 ms figure in the
option's own doc comment. -/
theorem default_heartbeat_interval (st : TransportState) (tid : String) (t₀ : Nat)
    (h : st.options.heartbeat_interval = none) :
    (createSubscription st tid t₀).2.heartbeatIntervalMs = 50000 ∧
      (createSubscription st tid t₀).1.liveTimers =
        ⟨st.nextHandle, tid, t₀ + 50000⟩ :: st.liveTimers ∧
      orElseNat st.options.heartbeat_interval 50000 = 50000 ∧
      documentedHeartbeatIntervalDefault = 5000 ∧
      orElseNat st.options.heartbeat_interval 50000 ≠ documentedHeartbeatIntervalDefault := by
  refine ⟨?_, ?_, ?_, rfl, ?_⟩ <;>
    simp [createSubscription, setTimeoutArm, orElseNat, h, documentedHeartbeatIntervalDefault]

/-- Witness for C9 on the sample unconfigured transport. -/
theorem default_heartbeat_interval_witness :
    sampleBase.options.heartbeat_interval = none ∧
      ((createSubscription sampleBase "sub-1" 100).2.heartbeatIntervalMs = 50000 ∧
        (createSubscription sampleBase "sub-1" 100).1.liveTimers =
          ⟨sampleBase.nextHandle, "sub-1", 100 + 50000⟩ :: sampleBase.liveTimers ∧
        orElseNat sampleBase.options.heartbeat_interval 50000 = 50000 ∧
        documentedHeartbeatIntervalDefault = 5000 ∧
        orElseNat sampleBase.options.heartbeat_interval 50000 ≠ documentedHeartbeatIntervalDefault) :=
  ⟨by decide, default_heartbeat_interval sampleBase "sub-1" 100 (by decide)⟩

/-! ### C10 — the executor cannot be constructed without a pubsub -/

/-- C10: `getSubgraphExecutor` with no pubsub instance throws at
construction time, before any subscription machinery exists; an executor
state is returned exactly when a pubsub instance is provided. -/
theorem executor_requires_pubsub (v : String) (o : TransportOptions) :
    (∃ msg, getSubgraphExecutor v o none = .error msg) ∧
      (∀ p : Unit, getSubgraphExecutor v o (some p) = .ok (initialState v o)) ∧
      (∀ ps : Option Unit,
        (∃ ex, getSubgraphExecutor v o ps = .ok ex) ↔ ps.isSome = true) := by
  refine ⟨⟨_, rfl⟩, fun p => rfl, fun ps => ?_⟩
  cases ps with
  | none =>
    simp only [Option.isSome]
    constructor
    · rintro ⟨ex, hex⟩
      simp [getSubgraphExecutor] at hex
    · intro h
      simp at h
  | some p => exact ⟨fun _ => rfl, fun _ => ⟨_, rfl⟩⟩

/-! ### More shape lemmas -/

theorem rearmHeartbeat_subs (st : TransportState) (tid : String) :
    (rearmHeartbeat st tid).subs = st.subs := by
  rw [rearmHeartbeat_eq]

theorem rearmHeartbeat_stopFnSet (st : TransportState) (tid : String) :
    (rearmHeartbeat st tid).stopFnSet = st.stopFnSet := by
  rw [rearmHeartbeat_eq]

theorem rearmHeartbeat_verifier (st : TransportState) (tid : String) :
    (rearmHeartbeat st tid).verifier = st.verifier := by
  rw [rearmHeartbeat_eq]

theorem handleMessage_accepted (st : TransportState) (tid : String)
    (m : HTTPCallbackMessage) (sub : SubRec) (hsub : alLookup st.subs tid = some sub)
    (hreg : sub.pubsubRegistered = true) (hv : m.verifier = st.verifier) :
    handleMessage st tid m = dispatchAction (rearmHeartbeat st tid) tid m.action := by
  simp [handleMessage, hsub, hreg, hv]

/-- The subscription record right after creation. -/
def freshSubRec : SubRec := ⟨.active, [], 0, 0, true⟩

/-! ### C6 — inline data resolves the subscription immediately -/

/-- C6: a successful initiating response carrying non-null data and no
errors pushes that data into the result sequence exactly once, then the
sequence terminates successfully; afterwards the pub/sub handler is
unregistered (unsubscribed exactly once). -/
theorem inline_data_single_push (st : TransportState) (tid : String)
    (r : InitHttpResponse) (d : JSONData) (sub : SubRec)
    (hsub : alLookup st.subs tid = some sub) (hactive : sub.phase = .active)
    (hpushed : sub.pushed = []) (hunsub : sub.unsubCount = 0)
    (hok : r.ok = true) (hdata : r.body.data = some d) (herr : r.body.errors = none) :
    ∃ sub', alLookup (handleInitResponse st tid r).subs tid = some sub' ∧
      sub'.pushed = [.rawData d] ∧
      sub'.phase = .stopped none ∧
      sub'.pubsubRegistered = false ∧
      sub'.unsubCount = 1 := by
  have h1 : handleInitResponse st tid r = stopSub (pushVal st tid (.rawData d)) tid none := by
    simp [handleInitResponse, hok, herr, hdata]
  have h2 := pushVal_active_eq st tid (.rawData d) sub hsub hactive
  have h3 : alLookup (pushVal st tid (.rawData d)).subs tid =
      some { sub with pushed := sub.pushed ++ [.rawData d] } := by
    rw [h2]
    exact alLookup_alInsert_self _ _ _
  have h4 := stopSub_active_eq (pushVal st tid (.rawData d)) tid none _ h3 hactive
  refine ⟨{ sub with
      pushed := sub.pushed ++ [.rawData d], phase := .stopped none,
      cleanupCount := sub.cleanupCount + 1, unsubCount := sub.unsubCount + 1,
      pubsubRegistered := false }, ?_, ?_, rfl, rfl, ?_⟩
  · rw [h1, h4]
    exact alLookup_alInsert_self _ _ _
  · simp [hpushed]
  · simp [hunsub]

/-- Witness for C6: a 200 response with inline data on the sample
subscription. -/
theorem inline_data_single_push_witness :
    (alLookup sampleSub.subs "sub-1" = some freshSubRec ∧
        freshSubRec.phase = .active ∧ freshSubRec.pushed = [] ∧
        freshSubRec.unsubCount = 0) ∧
      (∃ sub', alLookup (handleInitResponse sampleSub "sub-1"
          ⟨true, 200, ⟨some "data-foo-1", none⟩⟩).subs "sub-1" = some sub' ∧
        sub'.pushed = [.rawData "data-foo-1"] ∧
        sub'.phase = .stopped none ∧
        sub'.pubsubRegistered = false ∧
        sub'.unsubCount = 1) :=
  ⟨by decide,
    inline_data_single_push sampleSub "sub-1" ⟨true, 200, ⟨some "data-foo-1", none⟩⟩
      "data-foo-1" freshSubRec (by decide) (by decide) (by decide) (by decide)
      rfl rfl rfl⟩

/-! ### C3 — error surfacing and aggregation (corrected) -/

/-- C3 counterexample: a `complete` message whose `errors` field is the
empty array carries no errors, yet the sequence does not terminate
successfully — `if (message.errors)` is truthy on `[]`, so the code
terminates with an empty `AggregateError` failure. -/
theorem complete_empty_errors_counterexample :
    completeStopErr (some []) = some (.aggregateError [] "") ∧
      completeStopErr (some []) ≠ none ∧
      (alLookup (handleMessage sampleSub "sub-1"
          ⟨"sub-1", "v-instance", .complete (some [])⟩).subs "sub-1").map SubRec.phase =
        some (.stopped (some (.aggregateError [] ""))) ∧
      (SubPhase.stopped (some (.aggregateError [] "")) ≠ .stopped none) := by
  refine ⟨rfl, by decide, by decide, by decide⟩

/-- C3 (amended): a single carried error — in a `complete` message or in
the initiating response payload — is surfaced as-is, and any other
carried count (two or more, or a present-but-empty list) is folded into
one aggregated terminal failure that carries the error list verbatim
(hence preserves every message; the initiating path additionally joins
the messages into the aggregate's own message). A `complete` message
terminates the sequence successfully exactly when its errors field is
absent, not merely empty. -/
theorem error_aggregation_amended (st : TransportState) (tid : String) (sub : SubRec)
    (e : GraphQLErrorVal) (errs : List GraphQLErrorVal)
    (hsub : alLookup st.subs tid = some sub) (hactive : sub.phase = .active)
    (hreg : sub.pubsubRegistered = true) (hlen : errs.length ≠ 1) :
    completeStopErr none = none ∧
      completeStopErr (some [e]) = some (.gqlError e) ∧
      completeStopErr (some errs) = some (.aggregateError errs "") ∧
      initErrorsStop [e] = .gqlError e ∧
      initErrorsStop errs =
        .aggregateError errs (String.intercalate "\n" (errs.map (fun x => x.message))) ∧
      (∀ merrs, ∃ sub',
        alLookup (handleMessage st tid ⟨tid, st.verifier, .complete merrs⟩).subs tid =
          some sub' ∧ sub'.phase = .stopped (completeStopErr merrs)) := by
  refine ⟨rfl, rfl, ?_, rfl, ?_, ?_⟩
  · match errs, hlen with
    | [], _ => rfl
    | [x], h => exact absurd rfl h
    | x :: y :: rest, _ => rfl
  · match errs, hlen with
    | [], _ => rfl
    | [x], h => exact absurd rfl h
    | x :: y :: rest, _ => rfl
  · intro merrs
    rw [handleMessage_accepted st tid _ sub hsub hreg rfl]
    have hsub' : alLookup (rearmHeartbeat st tid).subs tid = some sub := by
      rw [rearmHeartbeat_subs]
      exact hsub
    have h4 := stopSub_active_eq (rearmHeartbeat st tid) tid (completeStopErr merrs)
      sub hsub' hactive
    show ∃ sub', alLookup (stopSub (rearmHeartbeat st tid) tid
      (completeStopErr merrs)).subs tid = some sub' ∧ _
    rw [h4]
    exact ⟨_, alLookup_alInsert_self _ _ _, rfl⟩

/-- Witness for the amended C3 on the sample subscription with two
carried errors. -/
theorem error_aggregation_amended_witness :
    (alLookup sampleSub.subs "sub-1" = some freshSubRec ∧
        freshSubRec.phase = .active ∧ freshSubRec.pubsubRegistered = true ∧
        ([⟨"boom1", none, none⟩, ⟨"boom2", none, none⟩] : List GraphQLErrorVal).length ≠ 1) ∧
      (completeStopErr none = none ∧
        completeStopErr (some [⟨"boom0", none, none⟩]) =
          some (.gqlError ⟨"boom0", none, none⟩) ∧
        completeStopErr (some [⟨"boom1", none, none⟩, ⟨"boom2", none, none⟩]) =
          some (.aggregateError [⟨"boom1", none, none⟩, ⟨"boom2", none, none⟩] "") ∧
        initErrorsStop [⟨"boom0", none, none⟩] = .gqlError ⟨"boom0", none, none⟩ ∧
        initErrorsStop [⟨"boom1", none, none⟩, ⟨"boom2", none, none⟩] =
          .aggregateError [⟨"boom1", none, none⟩, ⟨"boom2", none, none⟩]
            (String.intercalate "\n"
              (([⟨"boom1", none, none⟩, ⟨"boom2", none, none⟩] :
                List GraphQLErrorVal).map (fun x => x.message))) ∧
        (∀ merrs, ∃ sub',
          alLookup (handleMessage sampleSub "sub-1"
            ⟨"sub-1", sampleSub.verifier, .complete merrs⟩).subs "sub-1" =
              some sub' ∧ sub'.phase = .stopped (completeStopErr merrs))) :=
  ⟨by decide,
    error_aggregation_amended sampleSub "sub-1" freshSubRec ⟨"boom0", none, none⟩
      [⟨"boom1", none, none⟩, ⟨"boom2", none, none⟩]
      (by decide) (by decide) (by decide) (by decide)⟩

/-! ### C5 — acceptance re-arms the heartbeat before dispatching -/

/-- C5: every message that passes the verifier check re-arms the
heartbeat timer of its subscription before its action is dispatched
(the dispatch runs on the re-armed state, for every action kind): the
old timer, when present, is cleared and exactly one new timer is
started and recorded under the message's id; re-arming touches neither
the subscription records nor the stop functions, and a `check` message
has no effect beyond the re-arm. -/
theorem accepted_message_rearms_before_dispatch (st : TransportState) (tid : String)
    (m : HTTPCallbackMessage) (sub : SubRec)
    (hsub : alLookup st.subs tid = some sub) (hreg : sub.pubsubRegistered = true)
    (hv : m.verifier = st.verifier) (hid : m.id = tid) :
    handleMessage st tid m = dispatchAction (rearmHeartbeat st tid) tid m.action ∧
      alLookup (rearmHeartbeat st tid).heartbeats m.id = some st.nextHandle ∧
      (∀ hh, alLookup st.heartbeats m.id = some hh →
        (rearmHeartbeat st tid).liveTimers =
          ⟨st.nextHandle, m.id, st.now + orElseNat st.options.heartbeat_interval 50000⟩ ::
            st.liveTimers.filter (fun t => t.handle ≠ hh)) ∧
      (alLookup st.heartbeats m.id = none →
        (rearmHeartbeat st tid).liveTimers =
          ⟨st.nextHandle, m.id, st.now + orElseNat st.options.heartbeat_interval 50000⟩ ::
            st.liveTimers) ∧
      (rearmHeartbeat st tid).subs = st.subs ∧
      (rearmHeartbeat st tid).stopFnSet = st.stopFnSet ∧
      (m.action = .check → handleMessage st tid m = rearmHeartbeat st tid) := by
  subst hid
  refine ⟨handleMessage_accepted st m.id m sub hsub hreg hv, ?_, ?_, ?_,
    rearmHeartbeat_subs st m.id, rearmHeartbeat_stopFnSet st m.id, ?_⟩
  · rw [rearmHeartbeat_eq]
    exact alLookup_alInsert_self _ _ _
  · intro hh hhh
    rw [rearmHeartbeat_eq]
    simp [hhh]
  · intro hnone
    rw [rearmHeartbeat_eq]
    simp [hnone]
  · intro hcheck
    rw [handleMessage_accepted st m.id m sub hsub hreg hv, hcheck]
    rfl

/-- Witness for C5: a verified `check` message on the sample
subscription. -/
theorem accepted_message_rearms_before_dispatch_witness :
    (alLookup sampleSub.subs "sub-1" = some freshSubRec ∧
        freshSubRec.pubsubRegistered = true ∧
        (⟨"sub-1", "v-instance", .check⟩ : HTTPCallbackMessage).verifier =
          sampleSub.verifier ∧
        (⟨"sub-1", "v-instance", .check⟩ : HTTPCallbackMessage).id = "sub-1") ∧
      (handleMessage sampleSub "sub-1" ⟨"sub-1", "v-instance", .check⟩ =
          dispatchAction (rearmHeartbeat sampleSub "sub-1") "sub-1"
            (⟨"sub-1", "v-instance", .check⟩ : HTTPCallbackMessage).action ∧
        alLookup (rearmHeartbeat sampleSub "sub-1").heartbeats
          (⟨"sub-1", "v-instance", .check⟩ : HTTPCallbackMessage).id =
            some sampleSub.nextHandle ∧
        (∀ hh, alLookup sampleSub.heartbeats
            (⟨"sub-1", "v-instance", .check⟩ : HTTPCallbackMessage).id = some hh →
          (rearmHeartbeat sampleSub "sub-1").liveTimers =
            ⟨sampleSub.nextHandle,
              (⟨"sub-1", "v-instance", .check⟩ : HTTPCallbackMessage).id,
              sampleSub.now + orElseNat sampleSub.options.heartbeat_interval 50000⟩ ::
              sampleSub.liveTimers.filter (fun t => t.handle ≠ hh)) ∧
        (alLookup sampleSub.heartbeats
            (⟨"sub-1", "v-instance", .check⟩ : HTTPCallbackMessage).id = none →
          (rearmHeartbeat sampleSub "sub-1").liveTimers =
            ⟨sampleSub.nextHandle,
              (⟨"sub-1", "v-instance", .check⟩ : HTTPCallbackMessage).id,
              sampleSub.now + orElseNat sampleSub.options.heartbeat_interval 50000⟩ ::
              sampleSub.liveTimers) ∧
        (rearmHeartbeat sampleSub "sub-1").subs = sampleSub.subs ∧
        (rearmHeartbeat sampleSub "sub-1").stopFnSet = sampleSub.stopFnSet ∧
        ((⟨"sub-1", "v-instance", .check⟩ : HTTPCallbackMessage).action = .check →
          handleMessage sampleSub "sub-1" ⟨"sub-1", "v-instance", .check⟩ =
            rearmHeartbeat sampleSub "sub-1")) :=
  ⟨by decide,
    accepted_message_rearms_before_dispatch sampleSub "sub-1"
      ⟨"sub-1", "v-instance", .check⟩ freshSubRec (by decide) (by decide)
      (by decide) (by decide)⟩

/-! ### C2 — cleanup runs exactly once per subscription -/

/-- Consistency of one subscription record with the once-only cleanup
discipline: while active, the cleanup body has never run (and the
pub/sub handler is registered); once stopped, it has run exactly once
(one unsubscribe, handler unregistered). -/
def SubConsistent (sub : SubRec) : Prop :=
  if sub.phase = .active then
    sub.cleanupCount = 0 ∧ sub.unsubCount = 0 ∧ sub.pubsubRegistered = true
  else
    sub.cleanupCount = 1 ∧ sub.unsubCount = 1 ∧ sub.pubsubRegistered = false

/-- Every subscription record of the transport is cleanup-consistent. -/
def CleanupInv (st : TransportState) : Prop :=
  ∀ p ∈ st.subs, SubConsistent p.2

instance subConsistent.decidable (sub : SubRec) : Decidable (SubConsistent sub) := by
  unfold SubConsistent
  infer_instance

instance cleanupInv.decidable (st : TransportState) : Decidable (CleanupInv st) := by
  unfold CleanupInv
  infer_instance

theorem cleanupInv_of_subs_eq {st st' : TransportState} (hs : st'.subs = st.subs)
    (h : CleanupInv st) : CleanupInv st' := by
  intro p hmem
  exact h p (hs ▸ hmem)

theorem cleanupInv_stopSub (st : TransportState) (tid : String) (err : Option StopErr)
    (h : CleanupInv st) : CleanupInv (stopSub st tid err) := by
  cases hl : alLookup st.subs tid with
  | none =>
    rw [stopSub_of_none st tid err hl]
    exact h
  | some sub =>
    cases hp : sub.phase with
    | stopped e =>
      rw [stopSub_of_stopped st tid err e sub hl hp]
      exact h
    | active =>
      rw [stopSub_active_eq st tid err sub hl hp]
      intro p hmem
      rcases mem_alInsert hmem with hpeq | hpmem
      · subst hpeq
        have hc := h _ (alLookup_mem hl)
        simp [SubConsistent, hp] at hc
        simp [SubConsistent, hc.1, hc.2.1]
      · exact h _ hpmem

theorem cleanupInv_pushVal (st : TransportState) (tid : String) (v : PushedValue)
    (h : CleanupInv st) : CleanupInv (pushVal st tid v) := by
  cases hl : alLookup st.subs tid with
  | none =>
    rw [pushVal_of_none st tid v hl]
    exact h
  | some sub =>
    cases hp : sub.phase with
    | stopped e =>
      rw [pushVal_of_stopped st tid v e sub hl hp]
      exact h
    | active =>
      rw [pushVal_active_eq st tid v sub hl hp]
      intro p hmem
      rcases mem_alInsert hmem with hpeq | hpmem
      · subst hpeq
        have hc := h _ (alLookup_mem hl)
        simpa [SubConsistent] using hc
      · exact h _ hpmem

theorem cleanupInv_handleMessage (st : TransportState) (tid : String)
    (m : HTTPCallbackMessage) (hinv : CleanupInv st) :
    CleanupInv (handleMessage st tid m) := by
  unfold handleMessage
  cases hl : alLookup st.subs tid with
  | none => exact hinv
  | some sub =>
    by_cases hr : sub.pubsubRegistered
    · by_cases hv : m.verifier = st.verifier
      · simp only [hr, hv, if_true]
        have h1 : CleanupInv (rearmHeartbeat st tid) :=
          cleanupInv_of_subs_eq (rearmHeartbeat_subs st tid) hinv
        cases m.action with
        | check => exact h1
        | next p => exact cleanupInv_pushVal _ _ _ h1
        | complete errs => exact cleanupInv_stopSub _ _ _ h1
      · simp only [hr, hv, if_true, if_false]
        exact hinv
    · simp only [hr, if_false]
      exact hinv

theorem cleanupInv_handleInitResponse (st : TransportState) (tid : String)
    (r : InitHttpResponse) (hinv : CleanupInv st) :
    CleanupInv (handleInitResponse st tid r) := by
  unfold handleInitResponse
  have h1 : CleanupInv (if r.ok then st
      else stopSub st tid (some (.gqlError (createHTTPError r.status)))) := by
    by_cases ho : r.ok
    · simpa [ho] using hinv
    · simpa [ho] using cleanupInv_stopSub _ _ _ hinv
  cases r.body.errors with
  | some errs => exact cleanupInv_stopSub _ _ _ h1
  | none =>
    cases r.body.data with
    | some d => exact cleanupInv_stopSub _ _ _ (cleanupInv_pushVal _ _ _ h1)
    | none => exact h1

theorem cleanupInv_fireTimer (st : TransportState) (h : Nat) (hinv : CleanupInv st) :
    CleanupInv (fireTimer st h) := by
  unfold fireTimer
  cases hf : st.liveTimers.find? (fun t => t.handle == h) with
  | none => exact hinv
  | some t =>
    by_cases hd : t.deadline ≤ st.now
    · simp only [hd, if_true]
      exact cleanupInv_stopSub _ _ _ (cleanupInv_of_subs_eq rfl hinv)
    · simp only [hd, if_false]
      exact hinv

theorem cleanupInv_dispose (st : TransportState) (hinv : CleanupInv st) :
    CleanupInv (dispose st) := by
  unfold dispose
  have h1 : ∀ (l : List String) (s : TransportState), CleanupInv s →
      CleanupInv (l.foldl (fun s tid => stopSub s tid none) s) := by
    intro l
    induction l with
    | nil => exact fun s hs => hs
    | cons a rest ih => exact fun s hs => ih _ (cleanupInv_stopSub _ _ _ hs)
  have h2 : ∀ (l : List (String × Nat)) (s : TransportState), CleanupInv s →
      CleanupInv (l.foldl (fun s p => clearTimeoutOpt s (some p.2)) s) := by
    intro l
    induction l with
    | nil => exact fun s hs => hs
    | cons a rest ih =>
      exact fun s hs => ih _ (cleanupInv_of_subs_eq (clearTimeoutOpt_subs _ _) hs)
  exact h2 _ _ (h1 _ _ hinv)

theorem createSubscription_subs (st : TransportState) (subId : String) (t₀ : Nat) :
    (createSubscription st subId t₀).1.subs = alInsert st.subs subId freshSubRec := rfl

theorem cleanupInv_createSubscription (st : TransportState) (subId : String) (t₀ : Nat)
    (hinv : CleanupInv st) : CleanupInv (createSubscription st subId t₀).1 := by
  intro p hmem
  rw [createSubscription_subs] at hmem
  rcases mem_alInsert hmem with hpeq | hpmem
  · subst hpeq
    simp [SubConsistent, freshSubRec]
  · exact hinv _ hpmem

theorem cleanupInv_step (st : TransportState) (e : Event) (hinv : CleanupInv st) :
    CleanupInv (step st e) := by
  have hnow : CleanupInv { st with now := e.time } := cleanupInv_of_subs_eq rfl hinv
  cases e with
  | deliver tid m t => exact cleanupInv_handleMessage _ _ _ hnow
  | initResponse tid r t => exact cleanupInv_handleInitResponse _ _ _ hnow
  | initFailure tid emsg t => exact cleanupInv_stopSub _ _ _ hnow
  | cancel tid t => exact cleanupInv_stopSub _ _ _ hnow
  | fire h t => exact cleanupInv_fireTimer _ _ hnow
  | disposeTransport t => exact cleanupInv_dispose _ hnow

/-- C2: cleanup runs exactly once per subscription on every exit path.
The cleanup-consistency invariant — active records have never run
cleanup, stopped records have run it exactly once (one unsubscribe, one
timer clear, handler unregistered) — is preserved by every event
(message delivery, initiating-response success or failure, timer
expiry, external cancellation, transport disposal) and by subscription
creation; settling an active subscription through any of those paths
runs cleanup exactly once; and re-entering `stop` from a terminal state
is a no-op on the whole transport state. -/
theorem cleanup_exactly_once (st : TransportState) (e : Event) (subId : String)
    (t₀ : Nat) (hinv : CleanupInv st) :
    CleanupInv (step st e) ∧
      CleanupInv (createSubscription st subId t₀).1 ∧
      (∀ tid sub err err', alLookup st.subs tid = some sub →
        sub.phase = .stopped err → stopSub st tid err' = st) ∧
      (∀ tid sub err₂, alLookup st.subs tid = some sub → sub.phase = .active →
        ∃ sub', alLookup (stopSub st tid err₂).subs tid = some sub' ∧
          sub'.phase = .stopped err₂ ∧ sub'.cleanupCount = 1 ∧ sub'.unsubCount = 1 ∧
          sub'.pubsubRegistered = false) := by
  refine ⟨cleanupInv_step st e hinv, cleanupInv_createSubscription st subId t₀ hinv,
    ?_, ?_⟩
  · intro tid sub err err' hl hp
    exact stopSub_of_stopped st tid err' err sub hl hp
  · intro tid sub err₂ hl hp
    have hc := hinv _ (alLookup_mem hl)
    simp [SubConsistent, hp] at hc
    rw [stopSub_active_eq st tid err₂ sub hl hp]
    exact ⟨_, alLookup_alInsert_self _ _ _, rfl, by simp [hc.1], by simp [hc.2.1], rfl⟩

/-- Witness for C2: the invariant holds on the sample subscription state
and a heartbeat-expiry event. -/
theorem cleanup_exactly_once_witness :
    CleanupInv sampleSub ∧
      (CleanupInv (step sampleSub (.fire 0 50100)) ∧
        CleanupInv (createSubscription sampleSub "sub-2" 200).1 ∧
        (∀ tid sub err err', alLookup sampleSub.subs tid = some sub →
          sub.phase = .stopped err → stopSub sampleSub tid err' = sampleSub) ∧
        (∀ tid sub err₂, alLookup sampleSub.subs tid = some sub →
          sub.phase = .active →
          ∃ sub', alLookup (stopSub sampleSub tid err₂).subs tid = some sub' ∧
            sub'.phase = .stopped err₂ ∧ sub'.cleanupCount = 1 ∧ sub'.unsubCount = 1 ∧
            sub'.pubsubRegistered = false)) :=
  ⟨by decide, cleanup_exactly_once sampleSub (.fire 0 50100) "sub-2" 200 (by decide)⟩

/-! ### C7 — at most one live heartbeat timer per id -/

/-- The live timers owned by subscription `tid`. -/
def timersFor (st : TransportState) (tid : String) : List Timer :=
  st.liveTimers.filter (fun t => t.subId = tid)

/-- Well-formedness of the timer registry: live timer handles are
pairwise distinct, all below the allocation counter, and every live
timer is exactly the one recorded for its owner in the `heartbeats`
map. -/
def TimerInv (st : TransportState) : Prop :=
  st.liveTimers.Pairwise (fun a b => a.handle ≠ b.handle) ∧
    (∀ t ∈ st.liveTimers, t.handle < st.nextHandle) ∧
    (∀ t ∈ st.liveTimers, alLookup st.heartbeats t.subId = some t.handle)

instance timerInv.decidable (st : TransportState) : Decidable (TimerInv st) := by
  unfold TimerInv
  infer_instance

theorem timerInv_of_eq {st st' : TransportState} (h1 : st'.liveTimers = st.liveTimers)
    (h2 : st'.heartbeats = st.heartbeats) (h3 : st'.nextHandle = st.nextHandle)
    (hinv : TimerInv st) : TimerInv st' := by
  unfold TimerInv at *
  rw [h1, h2, h3]
  exact hinv

theorem timerInv_clearTimeoutOpt (st : TransportState) (h : Option Nat)
    (hinv : TimerInv st) : TimerInv (clearTimeoutOpt st h) := by
  cases h with
  | none => exact hinv
  | some hh =>
    obtain ⟨hpw, hlt, hlk⟩ := hinv
    refine ⟨hpw.filter _, ?_, ?_⟩
    · intro t ht
      exact hlt t (List.mem_of_mem_filter ht)
    · intro t ht
      exact hlk t (List.mem_of_mem_filter ht)

theorem pushVal_timer_fields (st : TransportState) (tid : String) (v : PushedValue) :
    (pushVal st tid v).liveTimers = st.liveTimers ∧
      (pushVal st tid v).heartbeats = st.heartbeats ∧
      (pushVal st tid v).nextHandle = st.nextHandle := by
  cases hl : alLookup st.subs tid with
  | none =>
    rw [pushVal_of_none st tid v hl]
    exact ⟨rfl, rfl, rfl⟩
  | some sub =>
    cases hp : sub.phase with
    | stopped e =>
      rw [pushVal_of_stopped st tid v e sub hl hp]
      exact ⟨rfl, rfl, rfl⟩
    | active =>
      rw [pushVal_active_eq st tid v sub hl hp]
      exact ⟨rfl, rfl, rfl⟩

theorem timerInv_pushVal (st : TransportState) (tid : String) (v : PushedValue)
    (hinv : TimerInv st) : TimerInv (pushVal st tid v) := by
  obtain ⟨h1, h2, h3⟩ := pushVal_timer_fields st tid v
  exact timerInv_of_eq h1 h2 h3 hinv

theorem timerInv_stopSub (st : TransportState) (tid : String) (err : Option StopErr)
    (hinv : TimerInv st) : TimerInv (stopSub st tid err) := by
  cases hl : alLookup st.subs tid with
  | none =>
    rw [stopSub_of_none st tid err hl]
    exact hinv
  | some sub =>
    cases hp : sub.phase with
    | stopped e =>
      rw [stopSub_of_stopped st tid err e sub hl hp]
      exact hinv
    | active =>
      rw [stopSub_active_eq st tid err sub hl hp]
      obtain ⟨hpw, hlt, hlk⟩ := hinv
      cases hhb : alLookup st.heartbeats tid with
      | none =>
        refine ⟨hpw, hlt, ?_⟩
        intro t ht
        have htmem : t ∈ st.liveTimers := ht
        show alLookup (alErase st.heartbeats tid) t.subId = some t.handle
        by_cases hs : t.subId = tid
        · exfalso
          have hx := hlk t htmem
          rw [hs, hhb] at hx
          exact Option.noConfusion hx
        · rw [alLookup_alErase_ne _ _ _ hs]
          exact hlk t htmem
      | some hh =>
        refine ⟨hpw.filter _, ?_, ?_⟩
        · intro t ht
          exact hlt t (List.mem_of_mem_filter ht)
        · intro t ht
          have htf : t ∈ st.liveTimers.filter (fun u => u.handle ≠ hh) := ht
          have htmem : t ∈ st.liveTimers := List.mem_of_mem_filter htf
          have htne : t.handle ≠ hh := by
            have := List.of_mem_filter htf
            simpa using this
          show alLookup (alErase st.heartbeats tid) t.subId = some t.handle
          by_cases hs : t.subId = tid
          · exfalso
            apply htne
            have hx := hlk t htmem
            rw [hs, hhb] at hx
            exact (Option.some_inj.mp hx).symm
          · rw [alLookup_alErase_ne _ _ _ hs]
            exact hlk t htmem

theorem timerInv_rearmHeartbeat (st : TransportState) (tid : String)
    (hinv : TimerInv st) : TimerInv (rearmHeartbeat st tid) := by
  rw [rearmHeartbeat_eq]
  obtain ⟨hpw, hlt, hlk⟩ := hinv
  cases hhb : alLookup st.heartbeats tid with
  | none =>
    refine ⟨List.pairwise_cons.mpr ⟨?_, hpw⟩, ?_, ?_⟩
    · intro b hb
      exact (hlt b hb).ne'
    · intro t ht
      rcases List.mem_cons.mp ht with h | h
      · rw [h]
        exact Nat.lt_succ_self _
      · exact Nat.lt_succ_of_lt (hlt t h)
    · intro t ht
      rcases List.mem_cons.mp ht with h | h
      · rw [h]
        exact alLookup_alInsert_self _ _ _
      · by_cases hs : t.subId = tid
        · exfalso
          have := hlk t h
          rw [hs, hhb] at this
          exact absurd this (by simp)
        · rw [alLookup_alInsert_ne _ _ _ _ hs]
          exact hlk t h
  | some hh =>
    refine ⟨List.pairwise_cons.mpr ⟨?_, hpw.filter _⟩, ?_, ?_⟩
    · intro b hb
      exact (hlt b (List.mem_of_mem_filter hb)).ne'
    · intro t ht
      rcases List.mem_cons.mp ht with h | h
      · rw [h]
        exact Nat.lt_succ_self _
      · exact Nat.lt_succ_of_lt (hlt t (List.mem_of_mem_filter h))
    · intro t ht
      rcases List.mem_cons.mp ht with h | h
      · rw [h]
        exact alLookup_alInsert_self _ _ _
      · have htmem : t ∈ st.liveTimers := List.mem_of_mem_filter h
        have htne : t.handle ≠ hh := by
          have := List.of_mem_filter h
          simpa using this
        by_cases hs : t.subId = tid
        · exfalso
          apply htne
          have := hlk t htmem
          rw [hs, hhb] at this
          exact (Option.some_inj.mp this).symm
        · rw [alLookup_alInsert_ne _ _ _ _ hs]
          exact hlk t htmem

theorem timerInv_handleMessage (st : TransportState) (tid : String)
    (m : HTTPCallbackMessage) (hinv : TimerInv st) :
    TimerInv (handleMessage st tid m) := by
  unfold handleMessage
  cases hl : alLookup st.subs tid with
  | none => exact hinv
  | some sub =>
    by_cases hr : sub.pubsubRegistered
    · by_cases hv : m.verifier = st.verifier
      · simp only [hr, hv, if_true]
        have h1 := timerInv_rearmHeartbeat st tid hinv
        cases m.action with
        | check => exact h1
        | next p => exact timerInv_pushVal _ _ _ h1
        | complete errs => exact timerInv_stopSub _ _ _ h1
      · simp only [hr, hv, if_true, if_false]
        exact hinv
    · simp only [hr, if_false]
      exact hinv

theorem timerInv_handleInitResponse (st : TransportState) (tid : String)
    (r : InitHttpResponse) (hinv : TimerInv st) :
    TimerInv (handleInitResponse st tid r) := by
  unfold handleInitResponse
  have h1 : TimerInv (if r.ok then st
      else stopSub st tid (some (.gqlError (createHTTPError r.status)))) := by
    by_cases ho : r.ok
    · simpa [ho] using hinv
    · simpa [ho] using timerInv_stopSub _ _ _ hinv
  cases r.body.errors with
  | some errs => exact timerInv_stopSub _ _ _ h1
  | none =>
    cases r.body.data with
    | some d => exact timerInv_stopSub _ _ _ (timerInv_pushVal _ _ _ h1)
    | none => exact h1

theorem timerInv_fireTimer (st : TransportState) (h : Nat) (hinv : TimerInv st) :
    TimerInv (fireTimer st h) := by
  unfold fireTimer
  cases hf : st.liveTimers.find? (fun t => t.handle == h) with
  | none => exact hinv
  | some t =>
    by_cases hd : t.deadline ≤ st.now
    · simp only [hd, if_true]
      refine timerInv_stopSub _ _ _ ?_
      exact timerInv_clearTimeoutOpt st (some h) hinv
    · simp only [hd, if_false]
      exact hinv

theorem timerInv_dispose (st : TransportState) (hinv : TimerInv st) :
    TimerInv (dispose st) := by
  unfold dispose
  have h1 : ∀ (l : List String) (s : TransportState), TimerInv s →
      TimerInv (l.foldl (fun s tid => stopSub s tid none) s) := by
    intro l
    induction l with
    | nil => exact fun s hs => hs
    | cons a rest ih => exact fun s hs => ih _ (timerInv_stopSub _ _ _ hs)
  have h2 : ∀ (l : List (String × Nat)) (s : TransportState), TimerInv s →
      TimerInv (l.foldl (fun s p => clearTimeoutOpt s (some p.2)) s) := by
    intro l
    induction l with
    | nil => exact fun s hs => hs
    | cons a rest ih =>
      exact fun s hs => ih _ (timerInv_clearTimeoutOpt _ _ hs)
  exact h2 _ _ (h1 _ _ hinv)

theorem timerInv_step (st : TransportState) (e : Event) (hinv : TimerInv st) :
    TimerInv (step st e) := by
  have hnow : TimerInv { st with now := e.time } := timerInv_of_eq rfl rfl rfl hinv
  cases e with
  | deliver tid m t => exact timerInv_handleMessage _ _ _ hnow
  | initResponse tid r t => exact timerInv_handleInitResponse _ _ _ hnow
  | initFailure tid emsg t => exact timerInv_stopSub _ _ _ hnow
  | cancel tid t => exact timerInv_stopSub _ _ _ hnow
  | fire h t => exact timerInv_fireTimer _ _ hnow
  | disposeTransport t => exact timerInv_dispose _ hnow

theorem timerInv_createSubscription (st : TransportState) (subId : String) (t₀ : Nat)
    (hinv : TimerInv st) (hfresh : alLookup st.heartbeats subId = none) :
    TimerInv (createSubscription st subId t₀).1 := by
  obtain ⟨hpw, hlt, hlk⟩ := hinv
  unfold createSubscription setTimeoutArm
  refine ⟨List.pairwise_cons.mpr ⟨?_, hpw⟩, ?_, ?_⟩
  · intro b hb
    exact (hlt b hb).ne'
  · intro t ht
    rcases List.mem_cons.mp ht with h | h
    · rw [h]
      exact Nat.lt_succ_self _
    · exact Nat.lt_succ_of_lt (hlt t h)
  · intro t ht
    rcases List.mem_cons.mp ht with h | h
    · rw [h]
      exact alLookup_alInsert_self _ _ _
    · by_cases hs : t.subId = subId
      · exfalso
        have := hlk t h
        rw [hs, hfresh] at this
        exact absurd this (by simp)
      · rw [alLookup_alInsert_ne _ _ _ _ hs]
        exact hlk t h

theorem timersFor_length_le_one (st : TransportState) (tid : String)
    (hinv : TimerInv st) : (timersFor st tid).length ≤ 1 := by
  obtain ⟨hpw, _, hlk⟩ := hinv
  cases hl : timersFor st tid with
  | nil => simp
  | cons a rest =>
    cases rest with
    | nil => simp
    | cons b rest' =>
      exfalso
      have hpw' : (timersFor st tid).Pairwise (fun x y => x.handle ≠ y.handle) :=
        hpw.filter _
      rw [hl] at hpw'
      have hab : a.handle ≠ b.handle :=
        (List.pairwise_cons.mp hpw').1 b (List.mem_cons_self _ _)
      have hamem : a ∈ timersFor st tid := by
        rw [hl]
        exact List.mem_cons_self _ _
      have hbmem : b ∈ timersFor st tid := by
        rw [hl]
        exact List.mem_cons_of_mem _ (List.mem_cons_self _ _)
      have ha : a.subId = tid := by
        have := List.of_mem_filter hamem
        simpa using this
      have hb : b.subId = tid := by
        have := List.of_mem_filter hbmem
        simpa using this
      have hla := hlk a (List.mem_of_mem_filter hamem)
      have hlb := hlk b (List.mem_of_mem_filter hbmem)
      rw [ha] at hla
      rw [hb] at hlb
      rw [hla] at hlb
      exact hab (Option.some_inj.mp hlb)

/-- C7: for every subscription id at most one heartbeat timer is live at
any instant. The timer-registry invariant (distinct live handles, each
live timer being exactly the handle recorded for its owner) is preserved
by every event and by subscription creation for a fresh id — arming
always clears the owner's recorded handle first — and under it the live
timers owned by any id number at most one. Clearing is idempotent, and
clearing a handle that is not live is a no-op, not an error. -/
theorem at_most_one_timer_per_id (st : TransportState) (e : Event)
    (tid subId : String) (h t₀ : Nat) (hinv : TimerInv st)
    (hfresh : alLookup st.heartbeats subId = none) :
    TimerInv (step st e) ∧
      TimerInv (createSubscription st subId t₀).1 ∧
      (timersFor st tid).length ≤ 1 ∧
      clearTimeoutOpt (clearTimeoutOpt st (some h)) (some h) =
        clearTimeoutOpt st (some h) ∧
      ((∀ t ∈ st.liveTimers, t.handle ≠ h) → clearTimeoutOpt st (some h) = st) := by
  refine ⟨timerInv_step st e hinv, timerInv_createSubscription st subId t₀ hinv hfresh,
    timersFor_length_le_one st tid hinv, ?_, ?_⟩
  · have heq : ((st.liveTimers.filter (fun t => t.handle ≠ h)).filter
        (fun t => t.handle ≠ h)) = st.liveTimers.filter (fun t => t.handle ≠ h) := by
      apply List.filter_eq_self.mpr
      intro a ha
      exact (List.mem_filter.mp ha).2
    simp only [clearTimeoutOpt, heq]
  · intro hall
    have heq : st.liveTimers.filter (fun t => t.handle ≠ h) = st.liveTimers :=
      List.filter_eq_self.mpr (fun a ha => by simpa using hall a ha)
    simp only [clearTimeoutOpt, heq]

/-- Witness for C7 on the sample subscription state with a verified
delivery event. -/
theorem at_most_one_timer_per_id_witness :
    (TimerInv sampleSub ∧ alLookup sampleSub.heartbeats "sub-2" = none) ∧
      (TimerInv (step sampleSub
          (.deliver "sub-1" ⟨"sub-1", "v-instance", .check⟩ 120)) ∧
        TimerInv (createSubscription sampleSub "sub-2" 200).1 ∧
        (timersFor sampleSub "sub-1").length ≤ 1 ∧
        clearTimeoutOpt (clearTimeoutOpt sampleSub (some 0)) (some 0) =
          clearTimeoutOpt sampleSub (some 0) ∧
        ((∀ t ∈ sampleSub.liveTimers, t.handle ≠ 0) →
          clearTimeoutOpt sampleSub (some 0) = sampleSub)) :=
  ⟨by decide,
    at_most_one_timer_per_id sampleSub
      (.deliver "sub-1" ⟨"sub-1", "v-instance", .check⟩ 120) "sub-1" "sub-2" 0 200
      (by decide) (by decide)⟩

/-! ### C4 — silence for a full interval ends in a TIMEOUT_ERROR -/

/-- The handler's early return on a mismatched verifier leaves the state
untouched (source lines 189-191), stated as a reusable equation. -/
theorem handleMessage_mismatch_eq (st : TransportState) (tid : String)
    (m : HTTPCallbackMessage) (hv : m.verifier ≠ st.verifier) :
    handleMessage st tid m = st := by
  unfold handleMessage
  cases h : alLookup st.subs tid with
  | none => rfl
  | some sub => by_cases hr : sub.pubsubRegistered <;> simp [hr, hv]

/-- A benign initiating response — ok status, no error payload, no
inline data (source lines 143-174 take none of the stopping branches) —
leaves the transport state untouched: the subscription stays open,
waiting on callbacks. -/
theorem handleInitResponse_benign (st : TransportState) (tid : String)
    (r : InitHttpResponse) (hok : r.ok = true) (herr : r.body.errors = none)
    (hdata : r.body.data = none) : handleInitResponse st tid r = st := by
  simp [handleInitResponse, hok, herr, hdata]

/-- An event that cannot refresh or terminate subscription `tid` or
cancel its armed timer `h₀`: a delivery to its topic only with a wrong
verifier, a benign initiating response for it (ok status, no errors, no
inline data — the normal open-ended subscription acknowledgement), any
event of a different subscription, the firing of a different timer;
transport disposal is excluded. -/
def nonInterferingB (v tid : String) (h₀ : Nat) : Event → Bool
  | .deliver tid' m _ => tid' != tid || m.verifier != v
  | .initResponse tid' r _ =>
    tid' != tid || (r.ok && r.body.errors.isNone && r.body.data.isNone)
  | .initFailure tid' _ _ => tid' != tid
  | .cancel tid' _ => tid' != tid
  | .fire h _ => h != h₀
  | .disposeTransport _ => false

/-- The state of a subscription `tid` whose heartbeat timer `h₀` (with
deadline `dl`) is armed and pending: the timer is the one recorded for
`tid`, it is live, no other live timer shares its handle or its owner,
every live timer handle and every recorded heartbeat handle is below
the allocation counter, no other heartbeat entry holds `h₀`, and the
subscription is active with its pub/sub handler registered. -/
def PendingTimeout (tid : String) (h₀ dl : Nat) (v : String) (st : TransportState) : Prop :=
  st.verifier = v ∧
    alLookup st.heartbeats tid = some h₀ ∧
    (⟨h₀, tid, dl⟩ : Timer) ∈ st.liveTimers ∧
    (∀ t ∈ st.liveTimers, t.handle = h₀ → t = ⟨h₀, tid, dl⟩) ∧
    (∀ t ∈ st.liveTimers, t.subId = tid → t.handle = h₀) ∧
    (∀ t ∈ st.liveTimers, t.handle < st.nextHandle) ∧
    (∀ p ∈ st.heartbeats, p.1 ≠ tid → p.2 ≠ h₀) ∧
    (∀ p ∈ st.heartbeats, p.2 < st.nextHandle) ∧
    (∃ sub, alLookup st.subs tid = some sub ∧ sub.phase = .active ∧
      sub.pubsubRegistered = true)

instance subActiveRegistered.decidable (st : TransportState) (tid : String) :
    Decidable (∃ sub, alLookup st.subs tid = some sub ∧ sub.phase = .active ∧
      sub.pubsubRegistered = true) := by
  cases alLookup st.subs tid with
  | none =>
    refine isFalse ?_
    rintro ⟨sub, hs, _, _⟩
    exact Option.noConfusion hs
  | some sub =>
    by_cases hp : sub.phase = .active ∧ sub.pubsubRegistered = true
    · exact isTrue ⟨sub, rfl, hp.1, hp.2⟩
    · refine isFalse ?_
      rintro ⟨sub', hs, h1, h2⟩
      cases Option.some_inj.mp hs
      exact hp ⟨h1, h2⟩

instance pendingTimeout.decidable (tid : String) (h₀ dl : Nat) (v : String)
    (st : TransportState) : Decidable (PendingTimeout tid h₀ dl v st) := by
  unfold PendingTimeout
  infer_instance

theorem pendingTimeout_stopSub (tid tid' : String) (h₀ dl : Nat) (v : String)
    (st : TransportState) (err : Option StopErr) (hne : tid' ≠ tid)
    (hpt : PendingTimeout tid h₀ dl v st) :
    PendingTimeout tid h₀ dl v (stopSub st tid' err) := by
  cases hl : alLookup st.subs tid' with
  | none =>
    rw [stopSub_of_none _ _ _ hl]
    exact hpt
  | some sub =>
    cases hp : sub.phase with
    | stopped e =>
      rw [stopSub_of_stopped _ _ _ e sub hl hp]
      exact hpt
    | active =>
      rw [stopSub_active_eq _ _ _ sub hl hp]
      obtain ⟨hv, hhb, hmem, huniq, hown, hlt, hother, hhbb, sub₀, hsub₀, hph, hreg⟩ := hpt
      cases hclr : alLookup st.heartbeats tid' with
      | none =>
        refine ⟨hv, ?_, hmem, huniq, hown, hlt, ?_, ?_, sub₀, ?_, hph, hreg⟩
        · show alLookup (alErase st.heartbeats tid') tid = some h₀
          rw [alLookup_alErase_ne _ _ _ (Ne.symm hne)]
          exact hhb
        · intro p hp' hne'
          exact hother p (mem_alErase hp') hne'
        · intro p hp'
          exact hhbb p (mem_alErase hp')
        · show alLookup (alInsert st.subs tid' _) tid = some sub₀
          rw [alLookup_alInsert_ne _ _ _ _ (Ne.symm hne)]
          exact hsub₀
      | some hh =>
        have hhne : hh ≠ h₀ :=
          hother (tid', hh) (alLookup_mem hclr) hne
        refine ⟨hv, ?_, ?_, ?_, ?_, ?_, ?_, ?_, sub₀, ?_, hph, hreg⟩
        · show alLookup (alErase st.heartbeats tid') tid = some h₀
          rw [alLookup_alErase_ne _ _ _ (Ne.symm hne)]
          exact hhb
        · show (⟨h₀, tid, dl⟩ : Timer) ∈ st.liveTimers.filter (fun t => t.handle ≠ hh)
          exact List.mem_filter.mpr ⟨hmem, by simpa using Ne.symm hhne⟩
        · intro t ht
          exact huniq t (List.mem_of_mem_filter ht)
        · intro t ht
          exact hown t (List.mem_of_mem_filter ht)
        · intro t ht
          exact hlt t (List.mem_of_mem_filter ht)
        · intro p hp' hne'
          exact hother p (mem_alErase hp') hne'
        · intro p hp'
          exact hhbb p (mem_alErase hp')
        · show alLookup (alInsert st.subs tid' _) tid = some sub₀
          rw [alLookup_alInsert_ne _ _ _ _ (Ne.symm hne)]
          exact hsub₀

theorem pendingTimeout_pushVal (tid tid' : String) (h₀ dl : Nat) (v : String)
    (st : TransportState) (pv : PushedValue) (hne : tid' ≠ tid)
    (hpt : PendingTimeout tid h₀ dl v st) :
    PendingTimeout tid h₀ dl v (pushVal st tid' pv) := by
  cases hl : alLookup st.subs tid' with
  | none =>
    rw [pushVal_of_none _ _ _ hl]
    exact hpt
  | some sub =>
    cases hp : sub.phase with
    | stopped e =>
      rw [pushVal_of_stopped _ _ _ e sub hl hp]
      exact hpt
    | active =>
      rw [pushVal_active_eq _ _ _ sub hl hp]
      obtain ⟨hv, hhb, hmem, huniq, hown, hlt, hother, hhbb, sub₀, hsub₀, hph, hreg⟩ := hpt
      refine ⟨hv, hhb, hmem, huniq, hown, hlt, hother, hhbb, sub₀, ?_, hph, hreg⟩
      show alLookup (alInsert st.subs tid' _) tid = some sub₀
      rw [alLookup_alInsert_ne _ _ _ _ (Ne.symm hne)]
      exact hsub₀

theorem pendingTimeout_rearm (tid tid' : String) (h₀ dl : Nat) (v : String)
    (st : TransportState) (hne : tid' ≠ tid)
    (hpt : PendingTimeout tid h₀ dl v st) :
    PendingTimeout tid h₀ dl v (rearmHeartbeat st tid') := by
  rw [rearmHeartbeat_eq]
  obtain ⟨hv, hhb, hmem, huniq, hown, hlt, hother, hhbb, sub₀, hsub₀, hph, hreg⟩ := hpt
  have hnew : st.nextHandle ≠ h₀ := (hlt _ hmem).ne'
  have hhbtid : alLookup (alInsert st.heartbeats tid' st.nextHandle) tid = some h₀ := by
    rw [alLookup_alInsert_ne _ _ _ _ (Ne.symm hne)]
    exact hhb
  have hoth' : ∀ p ∈ alInsert st.heartbeats tid' st.nextHandle, p.1 ≠ tid → p.2 ≠ h₀ := by
    intro p hp' hne'
    rcases mem_alInsert hp' with hpeq | hpmem
    · rw [hpeq]
      exact hnew
    · exact hother p hpmem hne'
  have hhbb' : ∀ p ∈ alInsert st.heartbeats tid' st.nextHandle,
      p.2 < st.nextHandle + 1 := by
    intro p hp'
    rcases mem_alInsert hp' with hpeq | hpmem
    · rw [hpeq]
      exact Nat.lt_succ_self _
    · exact Nat.lt_succ_of_lt (hhbb p hpmem)
  cases hclr : alLookup st.heartbeats tid' with
  | none =>
    refine ⟨hv, hhbtid, List.mem_cons_of_mem _ hmem, ?_, ?_, ?_, hoth', hhbb',
      sub₀, hsub₀, hph, hreg⟩
    · intro t ht heq
      rcases List.mem_cons.mp ht with h | h
      · exfalso
        rw [h] at heq
        exact hnew heq
      · exact huniq t h heq
    · intro t ht hs
      rcases List.mem_cons.mp ht with h | h
      · exfalso
        rw [h] at hs
        exact hne hs
      · exact hown t h hs
    · intro t ht
      rcases List.mem_cons.mp ht with h | h
      · rw [h]
        exact Nat.lt_succ_self _
      · exact Nat.lt_succ_of_lt (hlt t h)
  | some hh =>
    have hhne : hh ≠ h₀ := hother (tid', hh) (alLookup_mem hclr) hne
    refine ⟨hv, hhbtid, ?_, ?_, ?_, ?_, hoth', hhbb', sub₀, hsub₀, hph, hreg⟩
    · exact List.mem_cons_of_mem _
        (List.mem_filter.mpr ⟨hmem, by simpa using Ne.symm hhne⟩)
    · intro t ht heq
      rcases List.mem_cons.mp ht with h | h
      · exfalso
        rw [h] at heq
        exact hnew heq
      · exact huniq t (List.mem_of_mem_filter h) heq
    · intro t ht hs
      rcases List.mem_cons.mp ht with h | h
      · exfalso
        rw [h] at hs
        exact hne hs
      · exact hown t (List.mem_of_mem_filter h) hs
    · intro t ht
      rcases List.mem_cons.mp ht with h | h
      · rw [h]
        exact Nat.lt_succ_self _
      · exact Nat.lt_succ_of_lt (hlt t (List.mem_of_mem_filter h))

theorem pendingTimeout_handleMessage (tid tid' : String) (h₀ dl : Nat) (v : String)
    (st : TransportState) (m : HTTPCallbackMessage)
    (hcase : tid' ≠ tid ∨ m.verifier ≠ v)
    (hpt : PendingTimeout tid h₀ dl v st) :
    PendingTimeout tid h₀ dl v (handleMessage st tid' m) := by
  have hv : st.verifier = v := hpt.1
  by_cases hvm : m.verifier = st.verifier
  · have hne : tid' ≠ tid := by
      rcases hcase with h | h
      · exact h
      · exact absurd (hvm.trans hv) h
    unfold handleMessage
    cases hl : alLookup st.subs tid' with
    | none => exact hpt
    | some sub =>
      by_cases hr : sub.pubsubRegistered
      · simp only [hr, hvm, if_true]
        have h1 := pendingTimeout_rearm tid tid' h₀ dl v st hne hpt
        cases m.action with
        | check => exact h1
        | next p => exact pendingTimeout_pushVal _ _ _ _ _ _ _ hne h1
        | complete errs => exact pendingTimeout_stopSub _ _ _ _ _ _ _ hne h1
      · simp only [hr, if_false]
        exact hpt
  · rw [handleMessage_mismatch_eq st tid' m hvm]
    exact hpt

theorem pendingTimeout_handleInitResponse (tid tid' : String) (h₀ dl : Nat) (v : String)
    (st : TransportState) (r : InitHttpResponse) (hne : tid' ≠ tid)
    (hpt : PendingTimeout tid h₀ dl v st) :
    PendingTimeout tid h₀ dl v (handleInitResponse st tid' r) := by
  unfold handleInitResponse
  have h1 : PendingTimeout tid h₀ dl v (if r.ok then st
      else stopSub st tid' (some (.gqlError (createHTTPError r.status)))) := by
    by_cases ho : r.ok
    · simpa [ho] using hpt
    · simpa [ho] using pendingTimeout_stopSub _ _ _ _ _ _ _ hne hpt
  cases r.body.errors with
  | some errs => exact pendingTimeout_stopSub _ _ _ _ _ _ _ hne h1
  | none =>
    cases r.body.data with
    | some d =>
      exact pendingTimeout_stopSub _ _ _ _ _ _ _ hne
        (pendingTimeout_pushVal _ _ _ _ _ _ _ hne h1)
    | none => exact h1

theorem pendingTimeout_fireTimer (tid : String) (h₀ dl : Nat) (v : String)
    (st : TransportState) (h : Nat) (hne : h ≠ h₀)
    (hpt : PendingTimeout tid h₀ dl v st) :
    PendingTimeout tid h₀ dl v (fireTimer st h) := by
  unfold fireTimer
  cases hf : st.liveTimers.find? (fun t => t.handle == h) with
  | none => exact hpt
  | some t =>
    by_cases hd : t.deadline ≤ st.now
    · simp only [hd, if_true]
      have hth : t.handle = h := by simpa using List.find?_some hf
      have htmem := List.mem_of_find?_eq_some hf
      obtain ⟨hv, hhb, hmem, huniq, hown, hlt, hother, hhbb, sub₀, hsub₀, hph, hreg⟩ := hpt
      have hsubne : t.subId ≠ tid := by
        intro hs
        exact hne (hth.symm.trans (hown t htmem hs))
      have hpt₁ : PendingTimeout tid h₀ dl v
          { st with liveTimers := st.liveTimers.filter (fun u => u.handle ≠ h) } := by
        refine ⟨hv, hhb, ?_, ?_, ?_, ?_, hother, hhbb, sub₀, hsub₀, hph, hreg⟩
        · exact List.mem_filter.mpr ⟨hmem, by simpa using Ne.symm hne⟩
        · intro u hu
          exact huniq u (List.mem_of_mem_filter hu)
        · intro u hu
          exact hown u (List.mem_of_mem_filter hu)
        · intro u hu
          exact hlt u (List.mem_of_mem_filter hu)
      exact pendingTimeout_stopSub _ _ _ _ _ _ _ hsubne hpt₁
    · simp only [hd, if_false]
      exact hpt

theorem pendingTimeout_step (tid : String) (h₀ dl : Nat) (v : String)
    (st : TransportState) (e : Event)
    (hpt : PendingTimeout tid h₀ dl v st)
    (hni : nonInterferingB v tid h₀ e = true) :
    PendingTimeout tid h₀ dl v (step st e) := by
  have hnow : PendingTimeout tid h₀ dl v { st with now := e.time } := hpt
  cases e with
  | deliver tid' m t =>
    have hc : tid' ≠ tid ∨ m.verifier ≠ v := by
      simp only [nonInterferingB, Bool.or_eq_true, bne_iff_ne] at hni
      exact hni
    exact pendingTimeout_handleMessage _ _ _ _ _ _ m hc hnow
  | initResponse tid' r t =>
    have hc : tid' ≠ tid ∨ (r.ok = true ∧ r.body.errors = none ∧ r.body.data = none) := by
      simpa only [nonInterferingB, Bool.or_eq_true, bne_iff_ne, Bool.and_eq_true,
        Option.isNone_iff_eq_none, and_assoc] using hni
    rcases hc with hc | ⟨hok, herr, hdata⟩
    · exact pendingTimeout_handleInitResponse _ _ _ _ _ _ r hc hnow
    · have heq : step st (.initResponse tid' r t) = { st with now := t } :=
        handleInitResponse_benign { st with now := t } tid' r hok herr hdata
      rw [heq]
      exact hnow
  | initFailure tid' emsg t =>
    have hc : tid' ≠ tid := by
      simpa only [nonInterferingB, bne_iff_ne] using hni
    exact pendingTimeout_stopSub _ _ _ _ _ _ _ hc hnow
  | cancel tid' t =>
    have hc : tid' ≠ tid := by
      simpa only [nonInterferingB, bne_iff_ne] using hni
    exact pendingTimeout_stopSub _ _ _ _ _ _ _ hc hnow
  | fire h t =>
    have hc : h ≠ h₀ := by
      simpa only [nonInterferingB, bne_iff_ne] using hni
    exact pendingTimeout_fireTimer _ _ _ _ _ _ hc hnow
  | disposeTransport t =>
    exact absurd hni (by simp [nonInterferingB])

theorem pendingTimeout_run (tid : String) (h₀ dl : Nat) (v : String)
    (st : TransportState) (tr : List Event)
    (hpt : PendingTimeout tid h₀ dl v st)
    (hni : ∀ e ∈ tr, nonInterferingB v tid h₀ e = true) :
    PendingTimeout tid h₀ dl v (run st tr) := by
  induction tr generalizing st with
  | nil => exact hpt
  | cons e rest ih =>
    exact ih (step st e)
      (pendingTimeout_step _ _ _ _ _ _ hpt (hni e (List.mem_cons_self _ _)))
      (fun e' he' => hni e' (List.mem_cons_of_mem _ he'))

theorem pendingTimeout_create (st₀ : TransportState) (subId : String) (t₀ : Nat)
    (hA : ∀ t ∈ st₀.liveTimers, t.handle < st₀.nextHandle)
    (hB : ∀ p ∈ st₀.heartbeats, p.2 < st₀.nextHandle)
    (hC : ∀ t ∈ st₀.liveTimers, t.subId ≠ subId) :
    PendingTimeout subId st₀.nextHandle
      (t₀ + orElseNat st₀.options.heartbeat_interval 50000) st₀.verifier
      (createSubscription st₀ subId t₀).1 := by
  unfold createSubscription setTimeoutArm
  refine ⟨rfl, alLookup_alInsert_self _ _ _, List.mem_cons_self _ _, ?_, ?_, ?_, ?_, ?_,
    freshSubRec, alLookup_alInsert_self _ _ _, rfl, rfl⟩
  · intro t ht heq
    rcases List.mem_cons.mp ht with h | h
    · exact h
    · exact absurd heq (hA t h).ne
  · intro t ht hs
    rcases List.mem_cons.mp ht with h | h
    · rw [h]
    · exact absurd hs (hC t h)
  · intro t ht
    rcases List.mem_cons.mp ht with h | h
    · rw [h]
      exact Nat.lt_succ_self _
    · exact Nat.lt_succ_of_lt (hA t h)
  · intro p hp' hne'
    rcases mem_alInsert hp' with hpeq | hpmem
    · exfalso
      apply hne'
      rw [hpeq]
    · exact (hB p hpmem).ne
  · intro p hp'
    rcases mem_alInsert hp' with hpeq | hpmem
    · rw [hpeq]
      exact Nat.lt_succ_self _
    · exact Nat.lt_succ_of_lt (hB p hpmem)

/-- Whether a callback action terminates the sequence. Only `complete`
does; `check` and `next` leave it open. -/
def CallbackAction.isTerminal : CallbackAction → Bool
  | .complete _ => true
  | .check => false
  | .next _ => false

theorem pendingTimeout_pushVal_self (tid : String) (h₀ dl : Nat) (v : String)
    (st : TransportState) (pv : PushedValue)
    (hpt : PendingTimeout tid h₀ dl v st) :
    PendingTimeout tid h₀ dl v (pushVal st tid pv) := by
  obtain ⟨hv, hhb, hmem, huniq, hown, hlt, hother, hhbb, sub₀, hsub₀, hph, hreg⟩ := hpt
  rw [pushVal_active_eq st tid pv sub₀ hsub₀ hph]
  exact ⟨hv, hhb, hmem, huniq, hown, hlt, hother, hhbb,
    { sub₀ with pushed := sub₀.pushed ++ [pv] }, alLookup_alInsert_self _ _ _, hph, hreg⟩

/-- An accepted non-terminating callback message (`check` or `next`)
delivered at time `t₁` re-arms the heartbeat: the old pending timer is
cleared and the freshly allocated one is pending with deadline
`t₁ + heartbeatIntervalMs` — the last accepted message becomes the new
timeout anchor. -/
theorem pendingTimeout_accepted (tid : String) (h₀ dl : Nat) (v : String)
    (st : TransportState) (m : HTTPCallbackMessage) (t₁ : Nat)
    (hmv : m.verifier = v) (hterm : m.action.isTerminal = false)
    (hpt : PendingTimeout tid h₀ dl v st) :
    PendingTimeout tid st.nextHandle
      (t₁ + orElseNat st.options.heartbeat_interval 50000) v
      (step st (.deliver tid m t₁)) := by
  obtain ⟨hv, hhb, hmem, huniq, hown, hlt, hother, hhbb, sub₀, hsub₀, hph, hreg⟩ := hpt
  show PendingTimeout tid st.nextHandle _ v (handleMessage { st with now := t₁ } tid m)
  have hsub' : alLookup ({ st with now := t₁ } : TransportState).subs tid = some sub₀ :=
    hsub₀
  rw [handleMessage_accepted _ tid m sub₀ hsub' hreg
    (show m.verifier = ({ st with now := t₁ } : TransportState).verifier by
      rw [hmv]; exact hv.symm)]
  have hre : PendingTimeout tid st.nextHandle
      (t₁ + orElseNat st.options.heartbeat_interval 50000) v
      (rearmHeartbeat { st with now := t₁ } tid) := by
    rw [rearmHeartbeat_eq]
    cases hclr : alLookup ({ st with now := t₁ } : TransportState).heartbeats tid with
    | none =>
      exfalso
      have hclr' : alLookup st.heartbeats tid = none := hclr
      rw [hhb] at hclr'
      exact Option.noConfusion hclr'
    | some hh =>
      have hclr' : alLookup st.heartbeats tid = some hh := hclr
      have hhh : hh = h₀ := Option.some_inj.mp (hclr'.symm.trans hhb)
      subst hhh
      refine ⟨hv, ?_, List.mem_cons_self _ _, ?_, ?_, ?_, ?_, ?_,
        sub₀, hsub₀, hph, hreg⟩
      · exact alLookup_alInsert_self _ _ _
      · intro u hu heq
        rcases List.mem_cons.mp hu with h | h
        · exact h
        · exact absurd heq (hlt u (List.mem_of_mem_filter h)).ne
      · intro u hu hs
        rcases List.mem_cons.mp hu with h | h
        · rw [h]
        · exfalso
          have h1 : u.handle = hh := hown u (List.mem_of_mem_filter h) hs
          have h2 : u.handle ≠ hh := by
            simpa using (List.mem_filter.mp h).2
          exact h2 h1
      · intro u hu
        rcases List.mem_cons.mp hu with h | h
        · rw [h]
          exact Nat.lt_succ_self _
        · exact Nat.lt_succ_of_lt (hlt u (List.mem_of_mem_filter h))
      · intro p hp' hne'
        rcases mem_alInsert hp' with hpeq | hpmem
        · exfalso
          apply hne'
          rw [hpeq]
        · exact (hhbb p hpmem).ne
      · intro p hp'
        rcases mem_alInsert hp' with hpeq | hpmem
        · rw [hpeq]
          exact Nat.lt_succ_self _
        · exact Nat.lt_succ_of_lt (hhbb p hpmem)
  cases hact : m.action with
  | check => exact hre
  | next p => exact pendingTimeout_pushVal_self _ _ _ _ _ _ hre
  | complete errs =>
    rw [hact] at hterm
    simp [CallbackAction.isTerminal] at hterm

theorem fireTimer_fires (st : TransportState) (h : Nat) (t : Timer)
    (hf : st.liveTimers.find? (fun u => u.handle == h) = some t)
    (hd : t.deadline ≤ st.now) :
    fireTimer st h =
      stopSub { st with liveTimers := st.liveTimers.filter (fun u => u.handle ≠ h) }
        t.subId (some (.gqlError createTimeoutError)) := by
  simp [fireTimer, hf, hd]

theorem stopSub_lookup_self (st : TransportState) (tid : String) (err : Option StopErr)
    (sub : SubRec) (h : alLookup st.subs tid = some sub) (hp : sub.phase = .active) :
    ∃ sub', alLookup (stopSub st tid err).subs tid = some sub' ∧
      sub'.phase = .stopped err := by
  rw [stopSub_active_eq st tid err sub h hp]
  exact ⟨_, alLookup_alInsert_self _ _ _, rfl⟩

theorem pendingTimeout_fire_self (tid : String) (h₀ dl : Nat) (v : String)
    (st : TransportState) (hpt : PendingTimeout tid h₀ dl v st) :
    ∃ sub, alLookup (step st (.fire h₀ dl)).subs tid = some sub ∧
      sub.phase = .stopped (some (.gqlError createTimeoutError)) := by
  obtain ⟨hv, hhb, hmem, huniq, hown, hlt, hother, hhbb, sub₀, hsub₀, hph, hreg⟩ := hpt
  show ∃ sub, alLookup (fireTimer { st with now := dl } h₀).subs tid = some sub ∧ _
  cases hf : st.liveTimers.find? (fun t => t.handle == h₀) with
  | none =>
    exfalso
    have hx := List.find?_eq_none.mp hf _ hmem
    simp at hx
  | some t =>
    have hth : t.handle = h₀ := by simpa using List.find?_some hf
    have htmem : t ∈ st.liveTimers := List.mem_of_find?_eq_some hf
    have hteq : t = ⟨h₀, tid, dl⟩ := huniq t htmem hth
    subst hteq
    have hf' : ({ st with now := dl } : TransportState).liveTimers.find?
        (fun u => u.handle == h₀) = some ⟨h₀, tid, dl⟩ := hf
    rw [fireTimer_fires _ _ _ hf' (le_refl dl)]
    exact stopSub_lookup_self _ tid _ sub₀ hsub₀ hph

/-- C4: the timeout is anchored both at subscription creation and at the
last accepted message. (a) Creation arms a heartbeat timer with deadline
creation-time + heartbeatIntervalMs; if no trace event refreshes or
terminates the subscription — only mismatched-verifier deliveries, a
benign initiating response (ok, no errors, no inline data), or other
subscriptions' traffic — the timer stays pending and its expiry at the
deadline ends the result sequence with the failure built by
`createTimeoutError`. (b) From any state in which the subscription's
timer is pending, an accepted non-terminating message (`check` or
`next`) at time `t₁` re-arms the timer with deadline
`t₁ + heartbeatIntervalMs`; if no further event refreshes or terminates
the subscription, that re-armed timer stays pending and its expiry at
its deadline ends the sequence the same way. The terminal failure's
machine-readable code is `TIMEOUT_ERROR`. -/
theorem heartbeat_timeout_error (st₀ : TransportState) (subId : String) (t₀ : Nat)
    (tr₁ : List Event) (st : TransportState) (tid : String) (h₀ dl : Nat) (v : String)
    (m : HTTPCallbackMessage) (t₁ : Nat) (tr₂ : List Event)
    (hA : ∀ t ∈ st₀.liveTimers, t.handle < st₀.nextHandle)
    (hB : ∀ p ∈ st₀.heartbeats, p.2 < st₀.nextHandle)
    (hC : ∀ t ∈ st₀.liveTimers, t.subId ≠ subId)
    (hni₁ : ∀ e ∈ tr₁, nonInterferingB st₀.verifier subId st₀.nextHandle e = true)
    (hpt : PendingTimeout tid h₀ dl v st)
    (hmv : m.verifier = v) (hterm : m.action.isTerminal = false)
    (hni₂ : ∀ e ∈ tr₂, nonInterferingB v tid st.nextHandle e = true) :
    PendingTimeout subId st₀.nextHandle
      (t₀ + orElseNat st₀.options.heartbeat_interval 50000) st₀.verifier
      (run (createSubscription st₀ subId t₀).1 tr₁) ∧
      (∃ sub,
        alLookup (step (run (createSubscription st₀ subId t₀).1 tr₁)
          (.fire st₀.nextHandle
            (t₀ + orElseNat st₀.options.heartbeat_interval 50000))).subs subId =
          some sub ∧
        sub.phase = .stopped (some (.gqlError createTimeoutError))) ∧
      PendingTimeout tid st.nextHandle
        (t₁ + orElseNat st.options.heartbeat_interval 50000) v
        (run (step st (.deliver tid m t₁)) tr₂) ∧
      (∃ sub,
        alLookup (step (run (step st (.deliver tid m t₁)) tr₂)
          (.fire st.nextHandle
            (t₁ + orElseNat st.options.heartbeat_interval 50000))).subs tid =
          some sub ∧
        sub.phase = .stopped (some (.gqlError createTimeoutError))) ∧
      createTimeoutError.code = some "TIMEOUT_ERROR" := by
  have hfin₁ := pendingTimeout_run subId st₀.nextHandle
    (t₀ + orElseNat st₀.options.heartbeat_interval 50000) st₀.verifier
    (createSubscription st₀ subId t₀).1 tr₁
    (pendingTimeout_create st₀ subId t₀ hA hB hC) hni₁
  have hfin₂ := pendingTimeout_run tid st.nextHandle
    (t₁ + orElseNat st.options.heartbeat_interval 50000) v
    (step st (.deliver tid m t₁)) tr₂
    (pendingTimeout_accepted tid h₀ dl v st m t₁ hmv hterm hpt) hni₂
  exact ⟨hfin₁, pendingTimeout_fire_self _ _ _ _ _ hfin₁,
    hfin₂, pendingTimeout_fire_self _ _ _ _ _ hfin₂, rfl⟩

/-- Witness for C4, both anchors: (a) a fresh transport and a
subscription whose trace holds only a benign 200 initiating response and
a forged-verifier delivery — the creation-armed timer fires at the
deadline with the TIMEOUT_ERROR failure; (b) the sample pending
subscription accepts a verified `check` at 30000, silence follows, and
the re-armed timer fires at 30000 + 50000 the same way. -/
theorem heartbeat_timeout_error_witness :
    ((∀ t ∈ sampleBase.liveTimers, t.handle < sampleBase.nextHandle) ∧
        (∀ p ∈ sampleBase.heartbeats, p.2 < sampleBase.nextHandle) ∧
        (∀ t ∈ sampleBase.liveTimers, t.subId ≠ "sub-1") ∧
        (∀ e ∈ ([.initResponse "sub-1" ⟨true, 200, ⟨none, none⟩⟩ 150,
            .deliver "sub-1" ⟨"sub-1", "forged", .check⟩ 10000] : List Event),
          nonInterferingB sampleBase.verifier "sub-1" sampleBase.nextHandle e = true) ∧
        PendingTimeout "sub-1" 0 50100 "v-instance" sampleSub ∧
        (⟨"sub-1", "v-instance", .check⟩ : HTTPCallbackMessage).verifier = "v-instance" ∧
        (⟨"sub-1", "v-instance", .check⟩ :
          HTTPCallbackMessage).action.isTerminal = false ∧
        (∀ e ∈ ([.deliver "sub-1" ⟨"sub-1", "forged", .check⟩ 60000] : List Event),
          nonInterferingB "v-instance" "sub-1" sampleSub.nextHandle e = true)) ∧
      (PendingTimeout "sub-1" sampleBase.nextHandle
          (100 + orElseNat sampleBase.options.heartbeat_interval 50000)
          sampleBase.verifier
          (run (createSubscription sampleBase "sub-1" 100).1
            [.initResponse "sub-1" ⟨true, 200, ⟨none, none⟩⟩ 150,
              .deliver "sub-1" ⟨"sub-1", "forged", .check⟩ 10000]) ∧
        (∃ sub,
          alLookup (step (run (createSubscription sampleBase "sub-1" 100).1
            [.initResponse "sub-1" ⟨true, 200, ⟨none, none⟩⟩ 150,
              .deliver "sub-1" ⟨"sub-1", "forged", .check⟩ 10000])
            (.fire sampleBase.nextHandle
              (100 + orElseNat sampleBase.options.heartbeat_interval 50000))).subs
                "sub-1" = some sub ∧
          sub.phase = .stopped (some (.gqlError createTimeoutError))) ∧
        PendingTimeout "sub-1" sampleSub.nextHandle
          (30000 + orElseNat sampleSub.options.heartbeat_interval 50000) "v-instance"
          (run (step sampleSub
            (.deliver "sub-1" ⟨"sub-1", "v-instance", .check⟩ 30000))
            [.deliver "sub-1" ⟨"sub-1", "forged", .check⟩ 60000]) ∧
        (∃ sub,
          alLookup (step (run (step sampleSub
            (.deliver "sub-1" ⟨"sub-1", "v-instance", .check⟩ 30000))
            [.deliver "sub-1" ⟨"sub-1", "forged", .check⟩ 60000])
            (.fire sampleSub.nextHandle
              (30000 + orElseNat sampleSub.options.heartbeat_interval 50000))).subs
                "sub-1" = some sub ∧
          sub.phase = .stopped (some (.gqlError createTimeoutError))) ∧
        createTimeoutError.code = some "TIMEOUT_ERROR") :=
  ⟨⟨by decide, by decide, by decide, by decide, by decide, by decide, by decide,
      by decide⟩,
    heartbeat_timeout_error sampleBase "sub-1" 100
      [.initResponse "sub-1" ⟨true, 200, ⟨none, none⟩⟩ 150,
        .deliver "sub-1" ⟨"sub-1", "forged", .check⟩ 10000]
      sampleSub "sub-1" 0 50100 "v-instance"
      ⟨"sub-1", "v-instance", .check⟩ 30000
      [.deliver "sub-1" ⟨"sub-1", "forged", .check⟩ 60000]
      (by decide) (by decide) (by decide) (by decide) (by decide) (by decide)
      (by decide) (by decide)⟩

/-! ### C8 — disposal: clean stops, timer clearing, idempotence -/

/-- The two passes of `[Symbol.asyncDispose]`, named for reasoning. -/
def stopLoop (st : TransportState) (l : List String) : TransportState :=
  l.foldl (fun s tid => stopSub s tid none) st

/-- The `clearTimeout` pass over the `heartbeats` values. -/
def clearLoop (st : TransportState) (l : List (String × Nat)) : TransportState :=
  l.foldl (fun s p => clearTimeoutOpt s (some p.2)) st

theorem dispose_eq (st : TransportState) :
    dispose st =
      clearLoop (stopLoop st st.stopFnSet) (stopLoop st st.stopFnSet).heartbeats := rfl

/-- Stopping `tid` is a no-op: it has no record or is already settled. -/
def Stopped (st : TransportState) (tid : String) : Prop :=
  ∀ sub, alLookup st.subs tid = some sub → sub.phase ≠ .active

/-- No live timer carries handle `h`. -/
def DeadHandle (st : TransportState) (h : Nat) : Prop :=
  ∀ t ∈ st.liveTimers, t.handle ≠ h

/-- The phase of the record registered under `tid`, when any. -/
def phaseOf (st : TransportState) (tid : String) : Option SubPhase :=
  (alLookup st.subs tid).map SubRec.phase

theorem stopSub_noop_of_stopping (st : TransportState) (tid : String)
    (err : Option StopErr) (hs : Stopped st tid) : stopSub st tid err = st := by
  cases hl : alLookup st.subs tid with
  | none => exact stopSub_of_none st tid err hl
  | some sub =>
    cases hp : sub.phase with
    | active => exact absurd hp (hs sub hl)
    | stopped e => exact stopSub_of_stopped st tid err e sub hl hp

theorem stopSub_liveTimers_sub {st : TransportState} {tid : String} {err : Option StopErr}
    {t : Timer} (ht : t ∈ (stopSub st tid err).liveTimers) : t ∈ st.liveTimers := by
  rcases hl : alLookup st.subs tid with _ | sub
  · rw [stopSub_of_none st tid err hl] at ht
    exact ht
  · rcases hp : sub.phase with _ | e
    · rw [stopSub_active_eq st tid err sub hl hp] at ht
      rcases hhb : alLookup st.heartbeats tid with _ | hh <;> rw [hhb] at ht
      · exact ht
      · exact List.mem_of_mem_filter ht
    · rw [stopSub_of_stopped st tid err e sub hl hp] at ht
      exact ht

theorem stopSub_heartbeats_sub {st : TransportState} {tid : String} {err : Option StopErr}
    {p : String × Nat} (hp' : p ∈ (stopSub st tid err).heartbeats) : p ∈ st.heartbeats := by
  rcases hl : alLookup st.subs tid with _ | sub
  · rw [stopSub_of_none st tid err hl] at hp'
    exact hp'
  · rcases hp : sub.phase with _ | e
    · rw [stopSub_active_eq st tid err sub hl hp] at hp'
      exact mem_alErase hp'
    · rw [stopSub_of_stopped st tid err e sub hl hp] at hp'
      exact hp'

theorem stopSub_stopFnSet_sub {st : TransportState} {tid : String} {err : Option StopErr}
    {x : String} (hx : x ∈ (stopSub st tid err).stopFnSet) : x ∈ st.stopFnSet := by
  rcases hl : alLookup st.subs tid with _ | sub
  · rw [stopSub_of_none st tid err hl] at hx
    exact hx
  · rcases hp : sub.phase with _ | e
    · rw [stopSub_active_eq st tid err sub hl hp] at hx
      exact List.mem_of_mem_filter hx
    · rw [stopSub_of_stopped st tid err e sub hl hp] at hx
      exact hx

theorem stopSub_subs_lookup_ne (st : TransportState) (tid tid' : String)
    (err : Option StopErr) (hne : tid ≠ tid') :
    alLookup (stopSub st tid' err).subs tid = alLookup st.subs tid := by
  rcases hl : alLookup st.subs tid' with _ | sub
  · rw [stopSub_of_none st tid' err hl]
  · rcases hp : sub.phase with _ | e
    · rw [stopSub_active_eq st tid' err sub hl hp]
      exact alLookup_alInsert_ne _ _ _ _ hne
    · rw [stopSub_of_stopped st tid' err e sub hl hp]

theorem stopped_stopSub_self (st : TransportState) (tid : String) (err : Option StopErr) :
    Stopped (stopSub st tid err) tid := by
  rcases hl : alLookup st.subs tid with _ | sub
  · rw [stopSub_of_none st tid err hl]
    intro sub h
    rw [hl] at h
    exact Option.noConfusion h
  · rcases hp : sub.phase with _ | e
    · rw [stopSub_active_eq st tid err sub hl hp]
      intro sub' h
      have h' := alLookup_alInsert_self st.subs tid
        { sub with
            phase := .stopped err,
            cleanupCount := sub.cleanupCount + 1,
            unsubCount := sub.unsubCount + 1,
            pubsubRegistered := false }
      rw [h'] at h
      cases Option.some_inj.mp h
      simp
    · rw [stopSub_of_stopped st tid err e sub hl hp]
      intro sub' h
      rw [hl] at h
      cases Option.some_inj.mp h
      rw [hp]
      simp

theorem stopped_stopSub_mono (st : TransportState) (tid tid' : String)
    (err : Option StopErr) (hs : Stopped st tid) : Stopped (stopSub st tid' err) tid := by
  by_cases he : tid = tid'
  · subst he
    exact stopped_stopSub_self st tid err
  · intro sub h
    rw [stopSub_subs_lookup_ne st tid tid' err he] at h
    exact hs sub h

theorem stopped_of_subs_eq {st st' : TransportState} {tid : String}
    (hsb : st'.subs = st.subs) (hs : Stopped st tid) : Stopped st' tid := by
  intro sub h
  rw [hsb] at h
  exact hs sub h

theorem clearTimeoutOpt_dead_noop (st : TransportState) (h : Nat)
    (hd : DeadHandle st h) : clearTimeoutOpt st (some h) = st := by
  have heq : st.liveTimers.filter (fun t => t.handle ≠ h) = st.liveTimers := by
    apply List.filter_eq_self.mpr
    intro a ha
    simpa using hd a ha
  simp only [clearTimeoutOpt, heq]

theorem clearTimeoutOpt_kills (st : TransportState) (h : Nat) :
    DeadHandle (clearTimeoutOpt st (some h)) h := by
  intro t ht
  simpa using (List.mem_filter.mp ht).2

theorem deadHandle_of_sub {st st' : TransportState} {h : Nat}
    (hsub : ∀ t ∈ st'.liveTimers, t ∈ st.liveTimers) (hd : DeadHandle st h) :
    DeadHandle st' h := by
  intro t ht
  exact hd t (hsub t ht)

theorem stopLoop_cons (st : TransportState) (a : String) (l : List String) :
    stopLoop st (a :: l) = stopLoop (stopSub st a none) l := rfl

theorem clearLoop_cons (st : TransportState) (a : String × Nat) (l : List (String × Nat)) :
    clearLoop st (a :: l) = clearLoop (clearTimeoutOpt st (some a.2)) l := rfl

theorem stopLoop_stopped_mono (l : List String) (st : TransportState) (tid : String)
    (hs : Stopped st tid) : Stopped (stopLoop st l) tid := by
  induction l generalizing st with
  | nil => exact hs
  | cons a rest ih =>
    rw [stopLoop_cons]
    exact ih _ (stopped_stopSub_mono st tid a none hs)

theorem stopLoop_stopped_of_mem (l : List String) (st : TransportState) (tid : String)
    (hmem : tid ∈ l) : Stopped (stopLoop st l) tid := by
  induction l generalizing st with
  | nil => simp at hmem
  | cons a rest ih =>
    rw [stopLoop_cons]
    by_cases hr : tid ∈ rest
    · exact ih _ hr
    · have ha : tid = a := by
        rcases List.mem_cons.mp hmem with h | h
        · exact h
        · exact absurd h hr
      subst ha
      exact stopLoop_stopped_mono rest _ tid (stopped_stopSub_self st tid none)

theorem stopLoop_noop (l : List String) (st : TransportState)
    (hall : ∀ tid ∈ l, Stopped st tid) : stopLoop st l = st := by
  induction l generalizing st with
  | nil => rfl
  | cons a rest ih =>
    rw [stopLoop_cons, stopSub_noop_of_stopping st a none (hall a (List.mem_cons_self _ _))]
    exact ih st (fun tid ht => hall tid (List.mem_cons_of_mem _ ht))

theorem stopLoop_stopFnSet_sub (l : List String) (st : TransportState) {x : String}
    (hx : x ∈ (stopLoop st l).stopFnSet) : x ∈ st.stopFnSet := by
  induction l generalizing st with
  | nil => exact hx
  | cons a rest ih =>
    rw [stopLoop_cons] at hx
    exact stopSub_stopFnSet_sub (ih _ hx)

theorem stopLoop_heartbeats_sub (l : List String) (st : TransportState)
    {p : String × Nat} (hp : p ∈ (stopLoop st l).heartbeats) : p ∈ st.heartbeats := by
  induction l generalizing st with
  | nil => exact hp
  | cons a rest ih =>
    rw [stopLoop_cons] at hp
    exact stopSub_heartbeats_sub (ih _ hp)

theorem stopLoop_liveTimers_sub (l : List String) (st : TransportState)
    {t : Timer} (ht : t ∈ (stopLoop st l).liveTimers) : t ∈ st.liveTimers := by
  induction l generalizing st with
  | nil => exact ht
  | cons a rest ih =>
    rw [stopLoop_cons] at ht
    exact stopSub_liveTimers_sub (ih _ ht)

theorem clearLoop_subs (l : List (String × Nat)) (st : TransportState) :
    (clearLoop st l).subs = st.subs := by
  induction l generalizing st with
  | nil => rfl
  | cons a rest ih =>
    rw [clearLoop_cons, ih, clearTimeoutOpt_subs]

theorem clearLoop_heartbeats (l : List (String × Nat)) (st : TransportState) :
    (clearLoop st l).heartbeats = st.heartbeats := by
  induction l generalizing st with
  | nil => rfl
  | cons a rest ih =>
    rw [clearLoop_cons, ih, clearTimeoutOpt_heartbeats]

theorem clearLoop_stopFnSet (l : List (String × Nat)) (st : TransportState) :
    (clearLoop st l).stopFnSet = st.stopFnSet := by
  induction l generalizing st with
  | nil => rfl
  | cons a rest ih =>
    rw [clearLoop_cons, ih, clearTimeoutOpt_stopFnSet]

theorem clearLoop_liveTimers_sub (l : List (String × Nat)) (st : TransportState)
    {t : Timer} (ht : t ∈ (clearLoop st l).liveTimers) : t ∈ st.liveTimers := by
  induction l generalizing st with
  | nil => exact ht
  | cons a rest ih =>
    rw [clearLoop_cons] at ht
    exact mem_liveTimers_clearTimeoutOpt (ih _ ht)

theorem clearLoop_dead_mono (l : List (String × Nat)) (st : TransportState) (h : Nat)
    (hd : DeadHandle st h) : DeadHandle (clearLoop st l) h :=
  deadHandle_of_sub (fun _ ht => clearLoop_liveTimers_sub l st ht) hd

theorem clearLoop_kills (l : List (String × Nat)) (st : TransportState)
    (k : String) (h : Nat) (hmem : (k, h) ∈ l) : DeadHandle (clearLoop st l) h := by
  induction l generalizing st with
  | nil => simp at hmem
  | cons a rest ih =>
    rw [clearLoop_cons]
    rcases List.mem_cons.mp hmem with he | hm
    · have ha : a.2 = h := by rw [← he]
      rw [ha]
      exact clearLoop_dead_mono rest _ h (clearTimeoutOpt_kills st h)
    · exact ih _ hm

theorem clearLoop_noop (l : List (String × Nat)) (st : TransportState)
    (hall : ∀ p ∈ l, DeadHandle st p.2) : clearLoop st l = st := by
  induction l generalizing st with
  | nil => rfl
  | cons a rest ih =>
    rw [clearLoop_cons, clearTimeoutOpt_dead_noop st a.2 (hall a (List.mem_cons_self _ _))]
    exact ih st (fun p hp => hall p (List.mem_cons_of_mem _ hp))

theorem dispose_dispose (st : TransportState) : dispose (dispose st) = dispose st := by
  rw [dispose_eq (dispose st)]
  have hstopped : ∀ tid ∈ (dispose st).stopFnSet, Stopped (dispose st) tid := by
    intro tid htid
    rw [dispose_eq st] at htid
    rw [clearLoop_stopFnSet] at htid
    have htid' : tid ∈ st.stopFnSet := stopLoop_stopFnSet_sub _ _ htid
    have h1 : Stopped (stopLoop st st.stopFnSet) tid :=
      stopLoop_stopped_of_mem _ _ _ htid'
    rw [dispose_eq st]
    exact stopped_of_subs_eq (clearLoop_subs _ _) h1
  rw [stopLoop_noop _ _ hstopped]
  have hdead : ∀ p ∈ (dispose st).heartbeats, DeadHandle (dispose st) p.2 := by
    intro p hp
    rw [dispose_eq st, clearLoop_heartbeats] at hp
    rw [dispose_eq st]
    exact clearLoop_kills _ _ p.1 p.2 hp
  exact clearLoop_noop _ _ hdead

theorem phaseOf_stopSub_ne (st : TransportState) (tid tid' : String)
    (err : Option StopErr) (hne : tid ≠ tid') :
    phaseOf (stopSub st tid' err) tid = phaseOf st tid := by
  unfold phaseOf
  rw [stopSub_subs_lookup_ne st tid tid' err hne]

theorem phaseOf_stopSub_stopped_none (st : TransportState) (tid tid' : String)
    (err : Option StopErr) (hph : phaseOf st tid = some (.stopped none)) :
    phaseOf (stopSub st tid' err) tid = some (.stopped none) := by
  by_cases he : tid = tid'
  · subst he
    cases hl : alLookup st.subs tid with
    | none => simp [phaseOf, hl] at hph
    | some sub =>
      have hp : sub.phase = .stopped none := by
        simpa [phaseOf, hl] using hph
      rw [stopSub_of_stopped st tid err none sub hl hp]
      exact hph
  · rw [phaseOf_stopSub_ne st tid tid' err he]
    exact hph

theorem stopLoop_preserves_stopped_none (l : List String) (st : TransportState)
    (tid : String) (hph : phaseOf st tid = some (.stopped none)) :
    phaseOf (stopLoop st l) tid = some (.stopped none) := by
  induction l generalizing st with
  | nil => exact hph
  | cons a rest ih =>
    rw [stopLoop_cons]
    exact ih _ (phaseOf_stopSub_stopped_none st tid a none hph)

theorem stopSub_self_active_phase (st : TransportState) (tid : String) (sub : SubRec)
    (hl : alLookup st.subs tid = some sub) (hp : sub.phase = .active) :
    phaseOf (stopSub st tid none) tid = some (.stopped none) := by
  rw [stopSub_active_eq st tid none sub hl hp]
  unfold phaseOf
  rw [alLookup_alInsert_self]
  rfl

theorem stopLoop_stops_active (l : List String) (st : TransportState) (tid : String)
    (hmem : tid ∈ l)
    (hph : phaseOf st tid = some .active ∨ phaseOf st tid = some (.stopped none)) :
    phaseOf (stopLoop st l) tid = some (.stopped none) := by
  induction l generalizing st with
  | nil => simp at hmem
  | cons a rest ih =>
    rw [stopLoop_cons]
    by_cases he : tid = a
    · subst he
      have h1 : phaseOf (stopSub st tid none) tid = some (.stopped none) := by
        rcases hph with hact | hstp
        · cases hl : alLookup st.subs tid with
          | none => simp [phaseOf, hl] at hact
          | some sub =>
            have hp : sub.phase = .active := by
              simpa [phaseOf, hl] using hact
            exact stopSub_self_active_phase st tid sub hl hp
        · exact phaseOf_stopSub_stopped_none st tid tid none hstp
      exact stopLoop_preserves_stopped_none rest _ tid h1
    · have hr : tid ∈ rest := by
        rcases List.mem_cons.mp hmem with h | h
        · exact absurd h he
        · exact h
      apply ih _ hr
      rcases hph with hact | hstp
      · exact Or.inl (by rw [phaseOf_stopSub_ne st tid a none he]; exact hact)
      · exact Or.inr (by rw [phaseOf_stopSub_ne st tid a none he]; exact hstp)

theorem dispose_stops_active (st : TransportState) (tid : String) (sub : SubRec)
    (hmem : tid ∈ st.stopFnSet) (hsub : alLookup st.subs tid = some sub)
    (hact : sub.phase = .active) :
    phaseOf (dispose st) tid = some (.stopped none) := by
  rw [dispose_eq st]
  have h1 : phaseOf (stopLoop st st.stopFnSet) tid = some (.stopped none) :=
    stopLoop_stops_active _ _ _ hmem (Or.inl (by simp [phaseOf, hsub, hact]))
  unfold phaseOf at *
  rw [clearLoop_subs]
  exact h1

theorem alLookup_of_mem_nodupkeys {α : Type} (l : List (String × α)) (k : String) (v : α)
    (hku : l.Pairwise (fun a b => a.1 ≠ b.1)) (hmem : (k, v) ∈ l) :
    alLookup l k = some v := by
  induction l with
  | nil => simp at hmem
  | cons a rest ih =>
    obtain ⟨hhd, htl⟩ := List.pairwise_cons.mp hku
    rcases List.mem_cons.mp hmem with he | hm
    · rw [← he]
      simp [alLookup]
    · have hka : ¬a.1 = k := fun hh => hhd (k, v) hm hh
      obtain ⟨a1, a2⟩ := a
      simp only [alLookup, if_neg hka]
      exact ih htl hm

theorem stopSub_ku (st : TransportState) (tid : String) (err : Option StopErr)
    (hku : st.heartbeats.Pairwise (fun a b => a.1 ≠ b.1)) :
    (stopSub st tid err).heartbeats.Pairwise (fun a b => a.1 ≠ b.1) := by
  rcases hl : alLookup st.subs tid with _ | sub
  · rw [stopSub_of_none st tid err hl]
    exact hku
  · rcases hp : sub.phase with _ | e
    · rw [stopSub_active_eq st tid err sub hl hp]
      exact hku.filter _
    · rw [stopSub_of_stopped st tid err e sub hl hp]
      exact hku

theorem stopSub_hb_step (st : TransportState) (tid'' tid' : String) (h : Nat)
    (err : Option StopErr)
    (hku : st.heartbeats.Pairwise (fun a b => a.1 ≠ b.1))
    (hq : (tid', h) ∈ st.heartbeats ∨ DeadHandle st h) :
    (tid', h) ∈ (stopSub st tid'' err).heartbeats ∨
      DeadHandle (stopSub st tid'' err) h := by
  rcases hq with hin | hdead
  · rcases hl : alLookup st.subs tid'' with _ | sub
    · rw [stopSub_of_none st tid'' err hl]
      exact Or.inl hin
    · rcases hp : sub.phase with _ | e
      · rw [stopSub_active_eq st tid'' err sub hl hp]
        by_cases he : tid'' = tid'
        · subst he
          have hlk : alLookup st.heartbeats tid'' = some h :=
            alLookup_of_mem_nodupkeys _ _ _ hku hin
          refine Or.inr ?_
          intro t ht
          rw [hlk] at ht
          simpa using (List.mem_filter.mp ht).2
        · refine Or.inl ?_
          show (tid', h) ∈ alErase st.heartbeats tid''
          exact List.mem_filter.mpr ⟨hin, by simpa using fun hh => he hh.symm⟩
      · rw [stopSub_of_stopped st tid'' err e sub hl hp]
        exact Or.inl hin
  · exact Or.inr (deadHandle_of_sub (fun _ ht => stopSub_liveTimers_sub ht) hdead)

theorem stopLoop_hb (l : List String) (st : TransportState) (tid' : String) (h : Nat)
    (hku : st.heartbeats.Pairwise (fun a b => a.1 ≠ b.1))
    (hq : (tid', h) ∈ st.heartbeats ∨ DeadHandle st h) :
    (tid', h) ∈ (stopLoop st l).heartbeats ∨ DeadHandle (stopLoop st l) h := by
  induction l generalizing st with
  | nil => exact hq
  | cons a rest ih =>
    rw [stopLoop_cons]
    exact ih _ (stopSub_ku st a none hku) (stopSub_hb_step st a tid' h none hku hq)

theorem dispose_clears_heartbeat (st : TransportState) (tid' : String) (h : Nat)
    (hku : st.heartbeats.Pairwise (fun a b => a.1 ≠ b.1))
    (hmem : (tid', h) ∈ st.heartbeats) : DeadHandle (dispose st) h := by
  rw [dispose_eq st]
  rcases stopLoop_hb st.stopFnSet st tid' h hku (Or.inl hmem) with hin | hdead
  · exact clearLoop_kills _ _ tid' h hin
  · exact clearLoop_dead_mono _ _ h hdead

/-- C8: disposing the transport invokes the stop of every still-active
registered subscription with no error, so each ends cleanly; every
handle recorded in the heartbeats map is cleared (no live timer carries
it afterwards, so no timer callback can ever fire again, let alone
twice); and disposing a second time reproduces the very same terminal
state — the stop pass and the clear pass are both no-ops — so no
subscription is unsubscribed twice. -/
theorem dispose_idempotent (st : TransportState) (tid tid' : String) (h : Nat)
    (sub : SubRec)
    (hku : st.heartbeats.Pairwise (fun a b => a.1 ≠ b.1))
    (hmem : tid ∈ st.stopFnSet)
    (hsub : alLookup st.subs tid = some sub) (hact : sub.phase = .active)
    (hhb : (tid', h) ∈ st.heartbeats) :
    dispose (dispose st) = dispose st ∧
      phaseOf (dispose st) tid = some (.stopped none) ∧
      DeadHandle (dispose st) h :=
  ⟨dispose_dispose st, dispose_stops_active st tid sub hmem hsub hact,
    dispose_clears_heartbeat st tid' h hku hhb⟩

/-- Witness for C8 on the sample subscription state. -/
theorem dispose_idempotent_witness :
    (sampleSub.heartbeats.Pairwise (fun a b => a.1 ≠ b.1) ∧
        "sub-1" ∈ sampleSub.stopFnSet ∧
        alLookup sampleSub.subs "sub-1" = some freshSubRec ∧
        freshSubRec.phase = .active ∧
        ("sub-1", 0) ∈ sampleSub.heartbeats) ∧
      (dispose (dispose sampleSub) = dispose sampleSub ∧
        phaseOf (dispose sampleSub) "sub-1" = some (.stopped none) ∧
        DeadHandle (dispose sampleSub) 0) :=
  ⟨by decide,
    dispose_idempotent sampleSub "sub-1" "sub-1" 0 freshSubRec
      (by decide) (by decide) (by decide) (by decide) (by decide)⟩

end HttpCallback
